import Mathlib

/-!
# Verification of the Loto ticket generator

A shallow embedding of `src/features/ticket/utils/loto-generator.ts` and of the
ticket-creation retry wrapper of the database service layer, together with
proofs of the structural claims about them.

The JavaScript random source `Math.floor(Math.random() * n)` is modelled by a
tape `s : Nat → Nat` of pre-drawn values: the draw at tape position `p` with
bound `n` yields `s p % n`.  Quantifying over all tapes covers every possible
behaviour of the random source, since `s p % n` ranges over all of `[0, n)`.
The one loop of the generator that is not syntactically bounded (the
`while (remaining > 0)` loop of `distributeNumbersAcrossColumns`) is given an
explicit fuel parameter; "the loop terminates on tape `s`" is expressed as
"some fuel makes it return `some`".
-/

namespace Loto

/-- `TicketCell`: a cell is either a number or `null`. -/
abbrev TicketCell := Option Int

/-- `TicketGrid`: rows of cells. -/
abbrev TicketGrid := List (List TicketCell)

/-- The random tape: position `p` holds the value backing the `p`-th call to
`Math.random()` in a single generation attempt; a draw with bound `n` is
`s p % n`. -/
abbrev RandTape := Nat → Nat

/-- `COLUMN_RANGES` from the source: the fixed inclusive (min, max) pair of
each of the 9 columns. -/
def COLUMN_RANGES : List (Int × Int) :=
  [(1, 9), (10, 19), (20, 29), (30, 39), (40, 49),
   (50, 59), (60, 69), (70, 79), (80, 90)]

def ROWS : Nat := 3
def COLS : Nat := 9
def NUMBERS_PER_ROW : Nat := 5
def TOTAL_NUMBERS : Nat := 15

/-! ## Step 1: `distributeNumbersAcrossColumns` -/

/-- The `while (remaining > 0)` loop of `distributeNumbersAcrossColumns`:
draw a column `s p % COLS`; if its count is below 3, increment it and
decrement `remaining`, otherwise retry.  `fuel` bounds the number of loop
iterations; `none` means the loop did not finish within `fuel` iterations.
On success, returns the counts together with the next unread tape position. -/
def distLoop (s : RandTape) : Nat → Nat → List Nat → Nat → Option (List Nat × Nat)
  | 0, _, _, _ => none
  | fuel + 1, p, counts, remaining =>
    if remaining = 0 then some (counts, p)
    else
      let col := s p % COLS
      if counts.getD col 0 < 3 then
        distLoop s fuel (p + 1) (counts.set col (counts.getD col 0 + 1)) (remaining - 1)
      else
        distLoop s fuel (p + 1) counts remaining

/-- `distributeNumbersAcrossColumns`: every column starts at a base count
of 1 (the first pass of the source), then the remaining
`TOTAL_NUMBERS - COLS = 6` numbers are distributed by the random loop. -/
def distributeNumbersAcrossColumns (fuel : Nat) (s : RandTape) (p : Nat) :
    Option (List Nat × Nat) :=
  distLoop s fuel p (List.replicate COLS 1) (TOTAL_NUMBERS - COLS)

/-! ## Step 2: `assignRowsToColumns` -/

/-- The two `throw` sites of `assignRowsToColumns`. -/
inductive AssignError
  /-- `'Cannot assign rows - constraint violation'`: no eligible row. -/
  | noEligibleRow
  /-- `` `Row ${row} has ${n} numbers, expected 5` ``: final per-row check. -/
  | rowCountMismatch
deriving DecidableEq, Repr

/-- The inner `for (let i = 0; i < count; i++)` loop of `assignRowsToColumns`
for one column: filter the rows that still have space and were not already
chosen by this column, fail if none remains, otherwise pick one at random.
Returns the chosen rows (in pick order), the updated per-row totals, and the
next tape position. -/
def assignRowsForColumn (s : RandTape) :
    Nat → Nat → List Nat → List Nat → Except AssignError (List Nat × List Nat × Nat)
  | 0, p, rowCounts, rows => .ok (rows, rowCounts, p)
  | count + 1, p, rowCounts, rows =>
    let validRows := [0, 1, 2].filter fun row =>
      decide (rowCounts.getD row 0 < NUMBERS_PER_ROW) && !(rows.contains row)
    if validRows.length = 0 then
      .error .noEligibleRow
    else
      let selectedRow := validRows.getD (s p % validRows.length) 0
      assignRowsForColumn s count (p + 1)
        (rowCounts.set selectedRow (rowCounts.getD selectedRow 0 + 1))
        (rows ++ [selectedRow])

/-- The outer `for (let col = 0; col < COLS; col++)` loop of
`assignRowsToColumns`: process `n` more columns starting at index `col`,
sorting each column's chosen rows ascending before recording them. -/
def assignColumns (s : RandTape) (columnCounts : List Nat) :
    Nat → Nat → Nat → List Nat → List (List Nat) →
    Except AssignError (List (List Nat) × List Nat × Nat)
  | 0, _, p, rowCounts, acc => .ok (acc, rowCounts, p)
  | n + 1, col, p, rowCounts, acc =>
    match assignRowsForColumn s (columnCounts.getD col 0) p rowCounts [] with
    | .error e => .error e
    | .ok (rows, rowCounts', p') =>
      assignColumns s columnCounts n (col + 1) p' rowCounts'
        (acc ++ [rows.insertionSort (· ≤ ·)])

/-- `assignRowsToColumns`: run the column loop from an all-zero per-row
total, then check that every row received exactly `NUMBERS_PER_ROW` numbers
(the final `for (let row = 0; row < ROWS; row++)` validation loop). -/
def assignRowsToColumns (columnCounts : List Nat) (s : RandTape) (p : Nat) :
    Except AssignError (List (List Nat) × Nat) :=
  match assignColumns s columnCounts COLS 0 p [0, 0, 0] [] with
  | .error e => .error e
  | .ok (assignments, rowCounts, p') =>
    if (List.range ROWS).all fun row => decide (rowCounts.getD row 0 = NUMBERS_PER_ROW) then
      .ok (assignments, p')
    else
      .error .rowCountMismatch

/-! ## Step 3: `generateNumbersForColumns` -/

/-- `Array.from({length: max - min + 1}, (_, i) => min + i)`: the pool of
available numbers of one column. -/
def columnRangeList (col : Nat) : List Int :=
  let r := COLUMN_RANGES.getD col (0, 0)
  (List.range (r.2 - r.1 + 1).toNat).map fun i => r.1 + (i : Int)

/-- The inner draw loop of `generateNumbersForColumns`: `count` times, pick a
random index into the pool, take that number and splice it out. -/
def pickNumbers (s : RandTape) : Nat → Nat → List Int → List Int × Nat
  | 0, p, _ => ([], p)
  | count + 1, p, available =>
    let idx := s p % available.length
    let n := available.getD idx 0
    let rest := pickNumbers s count (p + 1) (available.eraseIdx idx)
    (n :: rest.1, rest.2)

/-- The outer column loop of `generateNumbersForColumns`: `n` more columns
starting at `col`, each drawing its count of numbers and sorting ascending. -/
def genNumbersCols (s : RandTape) (columnCounts : List Nat) :
    Nat → Nat → Nat → List (List Int) × Nat
  | 0, _, p => ([], p)
  | n + 1, col, p =>
    let picked := pickNumbers s (columnCounts.getD col 0) p (columnRangeList col)
    let rest := genNumbersCols s columnCounts n (col + 1) picked.2
    ((picked.1.insertionSort (· ≤ ·)) :: rest.1, rest.2)

/-- `generateNumbersForColumns`. -/
def generateNumbersForColumns (columnCounts : List Nat) (s : RandTape) (p : Nat) :
    List (List Int) × Nat :=
  genNumbersCols s columnCounts COLS 0 p

/-! ## Step 4: `buildGrid` -/

/-- `grid[row][col] = v` on a list-of-lists grid. -/
def setCell (grid : TicketGrid) (row col : Nat) (v : TicketCell) : TicketGrid :=
  grid.set row ((grid.getD row []).set col v)

/-- The inner `for (let i = 0; i < rows.length; i++)` loop of `buildGrid`
for one column: place the i-th number at (i-th row, col). -/
def placeColumn : TicketGrid → Nat → List Nat → List Int → TicketGrid
  | grid, _, [], _ => grid
  | grid, col, row :: rows, numbers =>
    placeColumn (setCell grid row col (some (numbers.headD 0))) col rows numbers.tail

/-- The all-`null` 3×9 grid `buildGrid` starts from. -/
def emptyGrid : TicketGrid := List.replicate ROWS (List.replicate COLS none)

/-- Reading `grid[row][col]` (missing positions read as `null`). -/
def cellAt (grid : TicketGrid) (row col : Nat) : TicketCell :=
  (grid.getD row []).getD col none

/-- `buildGrid`: place every column's numbers at its assigned rows. -/
def buildGrid (columnRowAssignments : List (List Nat)) (columnNumbers : List (List Int)) :
    TicketGrid :=
  (List.range COLS).foldl
    (fun grid col =>
      placeColumn grid col (columnRowAssignments.getD col []) (columnNumbers.getD col []))
    emptyGrid

/-! ## The validator `isValidTicket` -/

/-- Reading a column of the grid top row to bottom row, keeping the non-null
cells (the `columnNumbers` accumulation of Rule 5). -/
def columnValues (grid : TicketGrid) (col : Nat) : List Int :=
  (List.range ROWS).filterMap fun row => (grid.getD row []).getD col none

/-- The adjacent-pair check of Rule 5: `numbers[i] <= numbers[i-1]` for some
`i` makes the ticket invalid. -/
def strictAscending : List Int → Bool
  | [] => true
  | [_] => true
  | a :: b :: rest => decide (a < b) && strictAscending (b :: rest)

/-- All non-null values of the grid in row-major order
(`grid.flat().filter(cell => cell !== null)`). -/
def gridNumbers (grid : TicketGrid) : List Int :=
  grid.flatten.filterMap id

/-- `isValidTicket`, rule by rule; the source's early `return false`s become
an `&&` chain. -/
def isValidTicket (grid : TicketGrid) : Bool :=
  -- Rule 1: grid is 3x9
  (decide (grid.length = ROWS) && grid.all fun row => decide (row.length = COLS)) &&
  -- Rule 2: each row has exactly 5 numbers
  ((List.range ROWS).all fun row =>
    decide (((grid.getD row []).filter fun cell => decide (cell ≠ none)).length
      = NUMBERS_PER_ROW)) &&
  -- Rule 3: each column has 1-3 numbers
  ((List.range COLS).all fun col =>
    let numberCount := (grid.filter fun row => decide ((row.getD col none) ≠ none)).length
    decide (1 ≤ numberCount) && decide (numberCount ≤ 3)) &&
  -- Rule 4: total 15 numbers
  decide ((gridNumbers grid).length = TOTAL_NUMBERS) &&
  -- Rule 5: numbers in each column are sorted ascending
  ((List.range COLS).all fun col => strictAscending (columnValues grid col)) &&
  -- Rule 6: numbers are within column ranges
  ((List.range COLS).all fun col =>
    let r := COLUMN_RANGES.getD col (0, 0)
    (List.range ROWS).all fun row =>
      match (grid.getD row []).getD col none with
      | none => true
      | some v => decide (r.1 ≤ v) && decide (v ≤ r.2)) &&
  -- Rule 7: all numbers are unique (Set size equals list length)
  decide ((gridNumbers grid).dedup.length = (gridNumbers grid).length)

/-! ## `generateLotoTicket` -/

/-- `createTicketGrid`: the four construction steps in sequence.  A `none`
is a thrown construction error (fuel exhaustion of the distribution loop, or
a row-assignment constraint violation). -/
def createTicketGrid (s : RandTape) (p : Nat) (fuel : Nat) : Option (TicketGrid × Nat) :=
  match distributeNumbersAcrossColumns fuel s p with
  | none => none
  | some (columnCounts, p1) =>
    match assignRowsToColumns columnCounts s p1 with
    | .error _ => none
    | .ok (columnRowAssignments, p2) =>
      let numbers := generateNumbersForColumns columnCounts s p2
      some (buildGrid columnRowAssignments numbers.1, numbers.2)

/-- One iteration of the attempt loop of `generateLotoTicket`, reading tape
`t` from position 0: `some grid` when the attempt builds a grid that passes
validation, `none` when it throws or fails validation. -/
def attemptResult (t : RandTape) (fuel : Nat) : Option TicketGrid :=
  match createTicketGrid t 0 fuel with
  | none => none
  | some (grid, _) => if isValidTicket grid then some grid else none

/-- The `for (let attempt = 0; ...)` loop of `generateLotoTicket`:
`remaining` attempts left, next attempt index `attempt`; attempt `k` reads the
fresh tape `tapes k`.  `none` is the terminal
`'Failed to generate valid ticket after maximum attempts'` error. -/
def genLoop (tapes : Nat → RandTape) (fuel : Nat) : Nat → Nat → Option TicketGrid
  | _, 0 => none
  | attempt, remaining + 1 =>
    match attemptResult (tapes attempt) fuel with
    | some grid => some grid
    | none => genLoop tapes fuel (attempt + 1) remaining

/-- `generateLotoTicket` with its `maxAttempts = 100` budget. -/
def generateLotoTicket (tapes : Nat → RandTape) (fuel : Nat) : Option TicketGrid :=
  genLoop tapes fuel 0 100

/-! ## The spec's six structural invariants (§3)

These definitions follow the wording of §3 of the specification; they are the
refinement targets the code-level validator and generator are compared
against. -/

/-- Modelled from the spec, §3 invariant 1: exactly 3 rows, each exactly 9
cells. -/
abbrev Inv1Shape (grid : TicketGrid) : Prop :=
  grid.length = 3 ∧ ∀ row ∈ grid, row.length = 9

/-- Modelled from the spec, §3 invariant 2: each row contains exactly 5
non-empty cells and 4 empty cells. -/
abbrev Inv2RowFill (grid : TicketGrid) : Prop :=
  ∀ row ∈ grid,
    row.countP (fun cell => cell.isSome) = 5 ∧ row.countP (fun cell => cell.isNone) = 4

/-- Modelled from the spec, §3 invariant 3: each column contains between 1
and 3 non-empty cells. -/
abbrev Inv3ColumnFill (grid : TicketGrid) : Prop :=
  ∀ col, col < 9 → 1 ≤ (columnValues grid col).length ∧ (columnValues grid col).length ≤ 3

/-- Modelled from the spec, §3 invariant 4: exactly 15 non-empty cells, all
values pairwise distinct. -/
abbrev Inv4Fifteen (grid : TicketGrid) : Prop :=
  (gridNumbers grid).length = 15 ∧ (gridNumbers grid).Nodup

/-- Modelled from the spec, §3 invariant 5's enumerated bands
(col0 = 1–9, col1 = 10–19, ..., col7 = 70–79, col8 = 80–90). -/
def specColumnRange (col : Nat) : Int × Int :=
  if col = 0 then (1, 9)
  else if col = 8 then (80, 90)
  else (10 * (col : Int), 10 * (col : Int) + 9)

/-- Modelled from the spec, §3 invariant 5: non-empty values of column `col`
lie in the column's fixed inclusive range. -/
abbrev Inv5Ranges (grid : TicketGrid) : Prop :=
  ∀ col, col < 9 → ∀ v ∈ columnValues grid col,
    (specColumnRange col).1 ≤ v ∧ v ≤ (specColumnRange col).2

/-- Modelled from the spec, §3 invariant 6: within a column, reading top row
to bottom row, non-empty values are strictly ascending (pairwise `<` in
reading order). -/
abbrev Inv6Ascending (grid : TicketGrid) : Prop :=
  ∀ col, col < 9 → (columnValues grid col).Pairwise (· < ·)

/-- All six §3 invariants. -/
abbrev SpecInvariants (grid : TicketGrid) : Prop :=
  Inv1Shape grid ∧ Inv2RowFill grid ∧ Inv3ColumnFill grid ∧
    Inv4Fifteen grid ∧ Inv5Ranges grid ∧ Inv6Ascending grid

/-! ## Serialization (`serializeTicket` / `deserializeTicket`)

`serializeTicket` is `JSON.stringify(grid)`; for a grid of integers and
`null`s this is the bracket/comma form with integers printed in decimal.
`deserializeTicket` is `JSON.parse` restricted to that grammar; a parse
failure (which in the source surfaces as a thrown exception) is `none`. -/

/-- The decimal digit characters. -/
def digitChar : Nat → Char
  | 0 => '0' | 1 => '1' | 2 => '2' | 3 => '3' | 4 => '4'
  | 5 => '5' | 6 => '6' | 7 => '7' | 8 => '8' | 9 => '9'
  | _ => '*'

/-- Decimal digits of `n`, most significant first; `fuel` bounds the
recursion depth (any `fuel > n` is enough). -/
def natDigits : Nat → Nat → List Char
  | 0, _ => []
  | fuel + 1, n =>
    if n < 10 then [digitChar n]
    else natDigits fuel (n / 10) ++ [digitChar (n % 10)]

/-- The decimal representation of an integer, as `Number::toString`
produces it for integral values. -/
def intChars (v : Int) : List Char :=
  if v < 0 then '-' :: natDigits (v.natAbs + 1) v.natAbs
  else natDigits (v.toNat + 1) v.toNat

/-- `JSON.stringify` of one cell: `null` or the decimal number. -/
def serializeCellChars : TicketCell → List Char
  | none => ['n', 'u', 'l', 'l']
  | some v => intChars v

/-- Comma-separated concatenation, as `JSON.stringify` lays out array
elements. -/
def commaSep : List (List Char) → List Char
  | [] => []
  | [x] => x
  | x :: y :: xs => x ++ ',' :: commaSep (y :: xs)

/-- `JSON.stringify` of one row. -/
def serializeRowChars (row : List TicketCell) : List Char :=
  '[' :: (commaSep (row.map serializeCellChars) ++ [']'])

/-- `JSON.stringify` of the whole grid, as a character list. -/
def serializeTicketChars (grid : TicketGrid) : List Char :=
  '[' :: (commaSep (grid.map serializeRowChars) ++ [']'])

/-- `serializeTicket(grid) = JSON.stringify(grid)`. -/
def serializeTicket (grid : TicketGrid) : String :=
  String.mk (serializeTicketChars grid)

/-- Consume a run of decimal digits, folding them onto the accumulator. -/
def parseDigitsAux : List Char → Nat → Nat × List Char
  | [], acc => (acc, [])
  | c :: cs, acc =>
    if c.isDigit then parseDigitsAux cs (acc * 10 + (c.toNat - 48))
    else (acc, c :: cs)

/-- Parse one JSON value of the cell grammar: `null` or a decimal integer. -/
def parseCell (cs : List Char) : Option (TicketCell × List Char) :=
  match cs with
  | [] => none
  | c :: rest =>
    if c = 'n' then
      match rest with
      | 'u' :: 'l' :: 'l' :: rest' => some (none, rest')
      | _ => none
    else if c = '-' then
      match rest with
      | [] => none
      | d :: rest' =>
        if d.isDigit then
          let r := parseDigitsAux rest' (d.toNat - 48)
          some (some (-(r.1 : Int)), r.2)
        else none
    else if c.isDigit then
      let r := parseDigitsAux rest (c.toNat - 48)
      some (some ((r.1 : Int)), r.2)
    else none

/-- Parse the non-empty element list of a JSON array of cells, up to and
including the closing `]`. -/
def parseCellsAux : Nat → List Char → Option (List TicketCell × List Char)
  | 0, _ => none
  | fuel + 1, cs =>
    match parseCell cs with
    | none => none
    | some (cell, rest) =>
      match rest with
      | ',' :: rest' =>
        match parseCellsAux fuel rest' with
        | none => none
        | some (cells, r) => some (cell :: cells, r)
      | ']' :: rest' => some ([cell], rest')
      | _ => none

/-- Parse one JSON array of cells. -/
def parseRow (fuel : Nat) (cs : List Char) : Option (List TicketCell × List Char) :=
  match cs with
  | [] => none
  | c :: rest =>
    if c = '[' then
      match rest with
      | [] => none
      | d :: rest' => if d = ']' then some ([], rest') else parseCellsAux fuel (d :: rest')
    else none

/-- Parse the non-empty row list of the outer JSON array, up to and
including the closing `]`. -/
def parseRowsAux : Nat → List Char → Option (List (List TicketCell) × List Char)
  | 0, _ => none
  | fuel + 1, cs =>
    match parseRow fuel cs with
    | none => none
    | some (row, rest) =>
      match rest with
      | ',' :: rest' =>
        match parseRowsAux fuel rest' with
        | none => none
        | some (rows, r) => some (row :: rows, r)
      | ']' :: rest' => some ([row], rest')
      | _ => none

/-- `deserializeTicket(s) = JSON.parse(s)` on the grid grammar; `none` is
the thrown `SyntaxError` of `JSON.parse` on anything else. -/
def deserializeTicket (s : String) : Option TicketGrid :=
  match s.data with
  | [] => none
  | c :: rest =>
    if c = '[' then
      match rest with
      | [] => none
      | d :: rest' =>
        if d = ']' then (if rest' = [] then some ([] : TicketGrid) else none)
        else
          match parseRowsAux rest.length (d :: rest') with
          | some (rows, []) => some rows
          | _ => none
    else none

/-! ## The caller's ticket-creation workflow (`createTicket` of the database
service layer)

`createTicket` loops up to `maxAttempts = 10` times; each attempt generates
a fresh ticket, hashes it and inserts it.  The external effects of one
attempt are abstracted into an outcome environment: what the combination of
the random source and the persistence store does on that attempt. -/

/-- The observable outcome of one `createTicket` attempt. -/
inductive AttemptOutcome
  /-- The insert succeeded and returned the persisted ticket's grid. -/
  | ok (ticket : TicketGrid)
  /-- The insert was rejected with the uniqueness-violation code `'23505'`
  (duplicate `ticket_hash` in the room): the loop `continue`s. -/
  | dupReject
  /-- The insert failed with any other error: the attempt throws
  `Failed to create ticket`, which its own `catch` records before the loop
  continues. -/
  | dbError
  /-- `generateLotoTicket` (or hashing) threw; caught by the attempt's
  `catch`, the loop continues. -/
  | genFailure
deriving DecidableEq

/-- The result `createTicket` surfaces to its caller. -/
inductive CreateTicketResult
  /-- The persisted ticket. -/
  | ok (ticket : TicketGrid)
  /-- The terminal `Failed to generate unique ticket after 10 attempts`
  error. -/
  | exhausted
deriving DecidableEq

/-- The `for (let attempt = 0; attempt < maxAttempts; attempt++)` loop of
`createTicket`: any non-`ok` outcome moves to the next attempt. -/
def createTicketLoop (env : Nat → AttemptOutcome) : Nat → Nat → CreateTicketResult
  | _, 0 => .exhausted
  | attempt, remaining + 1 =>
    match env attempt with
    | .ok t => .ok t
    | _ => createTicketLoop env (attempt + 1) remaining

/-- `createTicket` with its `maxAttempts = 10` budget. -/
def createTicket (env : Nat → AttemptOutcome) : CreateTicketResult :=
  createTicketLoop env 0 10

/-! ## Concrete witness data -/

/-- A concrete random tape on which the very first generation attempt
succeeds: the distribution loop tops up columns 0, 1 and 2, and every later
draw picks index 0. -/
def tape0 : RandTape := fun n =>
  if n = 2 ∨ n = 3 then 1 else if n = 4 ∨ n = 5 then 2 else 0

/-- The grid `generateLotoTicket` produces on `tape0`. -/
def grid0 : TicketGrid :=
  [[some 1, some 10, some 20, some 30, some 40, none, none, none, none],
   [some 2, some 11, some 21, none, none, some 50, some 60, none, none],
   [some 3, some 12, some 22, none, none, none, none, some 70, some 80]]

/-- The row assignment produced on `tape0` (also a `buildGrid` test input). -/
def assigns0 : List (List Nat) :=
  [[0, 1, 2], [0, 1, 2], [0, 1, 2], [0], [0], [1], [1], [2], [2]]

/-- The column numbers produced on `tape0` (also a `buildGrid` test input). -/
def numbers0 : List (List Int) :=
  [[1, 2, 3], [10, 11, 12], [20, 21, 22], [30], [40], [50], [60], [70], [80]]

/-- A tape fairness condition: every column index is drawn infinitely
often.  A uniform random source satisfies it with probability 1. -/
def FairTape (s : RandTape) : Prop :=
  ∀ c, c < COLS → ∀ n, ∃ m, n ≤ m ∧ s m % COLS = c

/-! # Proofs

## The validator against the spec's invariants -/

lemma range_three : List.range 3 = [0, 1, 2] := rfl

lemma strictAscending_iff_chain (l : List Int) :
    strictAscending l = true ↔ l.Chain' (· < ·) := by
  induction l with
  | nil => simp [strictAscending]
  | cons a t ih =>
    cases t with
    | nil => simp [strictAscending]
    | cons b t' =>
      simp only [strictAscending, Bool.and_eq_true, decide_eq_true_eq, List.chain'_cons]
      exact and_congr_right fun _ => ih

lemma strictAscending_iff_pairwise (l : List Int) :
    strictAscending l = true ↔ l.Pairwise (· < ·) := by
  rw [strictAscending_iff_chain, List.chain'_iff_pairwise]

lemma dedup_length_iff (l : List Int) : l.dedup.length = l.length ↔ l.Nodup := by
  constructor
  · intro h
    rw [← List.dedup_eq_self]
    exact (List.dedup_sublist l).eq_of_length h
  · intro h
    rw [List.dedup_eq_self.mpr h]

lemma decide_ne_none_eq_isSome :
    (fun cell : TicketCell => decide (cell ≠ none)) = fun cell => cell.isSome := by
  funext c; cases c <;> simp

lemma forall_getD_iff_mem {P : List TicketCell → Prop} (grid : TicketGrid)
    (h3 : grid.length = 3) :
    (∀ r, r < 3 → P (grid.getD r [])) ↔ ∀ row ∈ grid, P row := by
  constructor
  · intro h row hrow
    obtain ⟨i, hi, rfl⟩ := List.mem_iff_getElem.mp hrow
    have hP := h i (by omega)
    rwa [List.getD_eq_getElem?_getD, List.getElem?_eq_getElem hi, Option.getD_some] at hP
  · intro h r hr
    have hr' : r < grid.length := by omega
    have hP := h _ (List.getElem_mem hr')
    rwa [List.getD_eq_getElem?_getD, List.getElem?_eq_getElem hr', Option.getD_some]

lemma row_counts_iff (row : List TicketCell) (h9 : row.length = 9) :
    (row.filter fun cell => decide (cell ≠ none)).length = 5 ↔
      row.countP (fun cell => cell.isSome) = 5 ∧
        row.countP (fun cell => cell.isNone) = 4 := by
  rw [← List.countP_eq_length_filter, decide_ne_none_eq_isSome]
  have hsplit := List.length_eq_countP_add_countP (fun cell : TicketCell => cell.isSome) row
  have hnot : (fun a : TicketCell => decide ¬a.isSome = true) =
      fun a : TicketCell => a.isNone := by
    funext c; cases c <;> simp
  rw [hnot] at hsplit
  omega

lemma countP_range_getD (grid : TicketGrid) (p : List TicketCell → Bool) :
    List.countP (fun r => p (grid.getD r [])) (List.range grid.length) =
      List.countP p grid := by
  induction grid with
  | nil => simp
  | cons h t ih =>
    rw [List.length_cons, List.range_succ_eq_map, List.countP_cons, List.countP_map]
    simp only [List.getD_cons_zero, Function.comp_def, List.getD_cons_succ]
    rw [ih, List.countP_cons]

lemma colCount_eq (grid : TicketGrid) (h3 : grid.length = 3) (col : Nat) :
    (grid.filter fun row => decide ((row.getD col none) ≠ none)).length =
      (columnValues grid col).length := by
  rw [← List.countP_eq_length_filter, columnValues, List.length_filterMap_eq_countP,
    show ROWS = grid.length from h3.symm,
    countP_range_getD grid (fun row => (row.getD col none).isSome)]
  refine List.countP_congr fun row _ => ?_
  cases row.getD col none <;> simp

lemma ranges_agree : ∀ col, col < 9 → COLUMN_RANGES.getD col (0, 0) = specColumnRange col := by
  decide

/-- The code's validator accepts a grid exactly when the grid satisfies the
six §3 invariants. -/
lemma isValidTicket_iff_invariants (grid : TicketGrid) :
    isValidTicket grid = true ↔ SpecInvariants grid := by
  unfold isValidTicket SpecInvariants
  simp only [Bool.and_eq_true, decide_eq_true_eq, List.all_eq_true, List.mem_range,
    ROWS, COLS, NUMBERS_PER_ROW, TOTAL_NUMBERS]
  constructor
  · rintro ⟨⟨⟨⟨⟨⟨⟨h3, h9⟩, r2⟩, r3⟩, r4⟩, r5⟩, r6⟩, r7⟩
    refine ⟨⟨h3, h9⟩, ?_, ?_, ⟨r4, (dedup_length_iff _).mp r7⟩, ?_, ?_⟩
    · intro row hrow
      exact (row_counts_iff row (h9 row hrow)).mp
        (((forall_getD_iff_mem
          (P := fun row => (row.filter fun cell => decide (cell ≠ none)).length = 5)
          grid h3).mp r2) row hrow)
    · intro col hcol
      have := r3 col hcol
      rwa [colCount_eq grid h3 col] at this
    · intro col hcol v hv
      rw [columnValues] at hv
      obtain ⟨r, hr, hcell⟩ := List.mem_filterMap.mp hv
      have hr3 : r < 3 := List.mem_range.mp hr
      have h6 := r6 col hcol r hr3
      rw [hcell] at h6
      rw [← ranges_agree col hcol]
      simpa using h6
    · intro col hcol
      exact (strictAscending_iff_pairwise _).mp (r5 col hcol)
  · rintro ⟨⟨h3, h9⟩, inv2, inv3, inv4, inv5, inv6⟩
    refine ⟨⟨⟨⟨⟨⟨⟨h3, h9⟩, ?_⟩, ?_⟩, inv4.1⟩, ?_⟩, ?_⟩, (dedup_length_iff _).mpr inv4.2⟩
    · refine (forall_getD_iff_mem
        (P := fun row => (row.filter fun cell => decide (cell ≠ none)).length = 5)
        grid h3).mpr ?_
      intro row hrow
      exact (row_counts_iff row (h9 row hrow)).mpr (inv2 row hrow)
    · intro col hcol
      rw [colCount_eq grid h3 col]
      exact inv3 col hcol
    · intro col hcol
      exact (strictAscending_iff_pairwise _).mpr (inv6 col hcol)
    · intro col hcol r hr3
      cases hc : (grid.getD r []).getD col none with
      | none => rfl
      | some v =>
        have hv : v ∈ columnValues grid col := by
          rw [columnValues]
          exact List.mem_filterMap.mpr ⟨r, List.mem_range.mpr hr3, hc⟩
        have hb := inv5 col hcol v hv
        rw [← ranges_agree col hcol] at hb
        simpa using hb

/-- Any grid extracted from the attempt loop passed the validator. -/
lemma genLoop_isValid {tapes : Nat → RandTape} {fuel : Nat} :
    ∀ {attempt remaining : Nat} {g : TicketGrid},
      genLoop tapes fuel attempt remaining = some g → isValidTicket g = true := by
  intro attempt remaining
  induction remaining generalizing attempt with
  | zero => intro g h; simp [genLoop] at h
  | succ r ih =>
    intro g h
    cases hA : attemptResult (tapes attempt) fuel with
    | none =>
      rw [genLoop, hA] at h
      exact ih h
    | some g' =>
      rw [genLoop, hA] at h
      cases h
      unfold attemptResult at hA
      cases hC : createTicketGrid (tapes attempt) 0 fuel with
      | none => rw [hC] at hA; cases hA
      | some pr =>
        rw [hC] at hA
        by_cases hv : isValidTicket pr.1
        · cases pr with
          | mk g2 p2 =>
            simp only [hv, if_true] at hA
            cases hA
            exact hv
        · cases pr with
          | mk g2 p2 =>
            simp only [hv, if_false] at hA
            cases hA

/-- C1: every grid returned successfully by `generateLotoTicket` satisfies
all six structural invariants of §3: exactly 3 rows of 9 cells; 5 non-empty
and 4 empty cells per row; between 1 and 3 non-empty cells per column;
exactly 15 pairwise-distinct non-empty values; every value inside its
column's fixed range; strictly ascending values top-to-bottom in each
column. -/
theorem generated_ticket_satisfies_invariants (tapes : Nat → RandTape) (fuel : Nat)
    (g : TicketGrid) (h : generateLotoTicket tapes fuel = some g) :
    SpecInvariants g :=
  (isValidTicket_iff_invariants g).mp (genLoop_isValid h)

/-- C1 witness: the concrete tape `tape0` makes `generateLotoTicket` return
`grid0`, and the invariants hold for it. -/
theorem generated_ticket_satisfies_invariants_witness :
    generateLotoTicket (fun _ => tape0) 10 = some grid0 ∧ SpecInvariants grid0 :=
  ⟨by decide, generated_ticket_satisfies_invariants (fun _ => tape0) 10 grid0 (by decide)⟩

/-- C10: the validator is a total boolean function on grids; it returns
`true` exactly when the six §3 invariants (with the code's column ranges)
hold, and in particular returns `false`, rather than failing, on any grid
that is not 3×9. -/
theorem isValidTicket_total_and_sound (grid : TicketGrid) :
    (isValidTicket grid = true ↔ SpecInvariants grid) ∧
      (¬(grid.length = 3 ∧ ∀ row ∈ grid, row.length = 9) → isValidTicket grid = false) := by
  refine ⟨isValidTicket_iff_invariants grid, ?_⟩
  intro hshape
  cases hvb : isValidTicket grid with
  | false => rfl
  | true =>
    exact absurd ((isValidTicket_iff_invariants grid).mp hvb).1 hshape

/-- C10 witness: a 2×2 grid is rejected (not an error), and the validator
accepts the concrete valid grid `grid0`. -/
theorem isValidTicket_total_and_sound_witness :
    isValidTicket [[some 1, none], [none, some 2]] = false ∧ isValidTicket grid0 = true :=
  ⟨(isValidTicket_total_and_sound [[some 1, none], [none, some 2]]).2 (by decide),
    (isValidTicket_total_and_sound grid0).1.mpr (by decide)⟩

/-! ## C2: the column ranges -/

/-- C2 counterexample: the claim's formula `[10c+1, 10c+9]` fails for
column 1.  On `tape0` the generator returns `grid0`, whose cell at
(row 0, column 1) holds the value 10, yet `10 < 10·1 + 1`. -/
theorem column_range_formula_counterexample :
    generateLotoTicket (fun _ => tape0) 10 = some grid0 ∧
      (grid0.getD 0 []).getD 1 none = some 10 ∧ ¬((10 * 1 + 1 : Int) ≤ 10) :=
  ⟨by decide, by decide, by decide⟩

/-- C2 amended: for every grid returned by `generateLotoTicket`, non-empty
values of column 0 lie in `[1, 9]`, of column `c` for `1 ≤ c ≤ 7` in
`[10c, 10c+9]` (the lower bound is `10c`, not `10c+1`), and of column 8 in
`[80, 90]`. -/
theorem generated_ticket_column_ranges (tapes : Nat → RandTape) (fuel : Nat)
    (g : TicketGrid) (h : generateLotoTicket tapes fuel = some g) :
    ∀ col, col < 9 → ∀ v ∈ columnValues g col,
      (col = 0 → 1 ≤ v ∧ v ≤ 9) ∧
        (1 ≤ col → col ≤ 7 → 10 * (col : Int) ≤ v ∧ v ≤ 10 * (col : Int) + 9) ∧
        (col = 8 → 80 ≤ v ∧ v ≤ 90) := by
  obtain ⟨-, -, -, -, inv5, -⟩ :=
    (isValidTicket_iff_invariants g).mp (genLoop_isValid h)
  intro col hcol v hv
  have hb := inv5 col hcol v hv
  refine ⟨?_, ?_, ?_⟩
  · rintro rfl
    simpa [specColumnRange] using hb
  · intro h1 h7
    have hr : specColumnRange col = (10 * (col : Int), 10 * (col : Int) + 9) := by
      unfold specColumnRange
      rw [if_neg (by omega), if_neg (by omega)]
    rw [hr] at hb
    exact hb
  · rintro rfl
    simpa [specColumnRange] using hb

/-- C2 amended witness: cell 10 of column 1 of `grid0` satisfies the
corrected band `[10, 19]`. -/
theorem generated_ticket_column_ranges_witness :
    10 * (1 : Int) ≤ 10 ∧ (10 : Int) ≤ 10 * (1 : Int) + 9 :=
  (generated_ticket_column_ranges (fun _ => tape0) 10 grid0 (by decide)
    1 (by decide) 10 (by decide)).2.1 (by decide) (by decide)

/-! ## C3: exhaustion exactly at 100 failed attempts -/

lemma genLoop_none_iff (tapes : Nat → RandTape) (fuel : Nat) :
    ∀ remaining attempt : Nat,
      (genLoop tapes fuel attempt remaining = none ↔
        ∀ k, k < remaining → attemptResult (tapes (attempt + k)) fuel = none) := by
  intro remaining
  induction remaining with
  | zero => intro attempt; simp [genLoop]
  | succ r ih =>
    intro attempt
    cases hA : attemptResult (tapes attempt) fuel with
    | some g =>
      simp only [genLoop, hA]
      constructor
      · intro h; exact absurd h (by simp)
      · intro hall
        have h0 := hall 0 (by omega)
        rw [Nat.add_zero, hA] at h0
        exact absurd h0 (by simp)
    | none =>
      simp only [genLoop, hA]
      rw [ih (attempt + 1)]
      constructor
      · intro h k hk
        cases k with
        | zero => rw [Nat.add_zero]; exact hA
        | succ k' =>
          have hs := h k' (by omega)
          rwa [show attempt + 1 + k' = attempt + (k' + 1) by omega] at hs
      · intro h k hk
        have hs := h (k + 1) (by omega)
        rwa [show attempt + (k + 1) = attempt + 1 + k by omega] at hs

lemma genLoop_first_some (tapes : Nat → RandTape) (fuel : Nat) :
    ∀ remaining attempt k : Nat, k < remaining →
      (∀ j, j < k → attemptResult (tapes (attempt + j)) fuel = none) →
      ∀ g, attemptResult (tapes (attempt + k)) fuel = some g →
        genLoop tapes fuel attempt remaining = some g := by
  intro remaining
  induction remaining with
  | zero => intro attempt k hk; exact absurd hk (by omega)
  | succ r ih =>
    intro attempt k hk hprev g hg
    cases k with
    | zero =>
      rw [Nat.add_zero] at hg
      simp [genLoop, hg]
    | succ k' =>
      have h0 : attemptResult (tapes attempt) fuel = none := by
        have hp := hprev 0 (by omega)
        rwa [Nat.add_zero] at hp
      simp only [genLoop, h0]
      refine ih (attempt + 1) k' (by omega) ?_ g ?_
      · intro j hj
        have hp := hprev (j + 1) (by omega)
        rwa [show attempt + (j + 1) = attempt + 1 + j by omega] at hp
      · rwa [show attempt + 1 + k' = attempt + (k' + 1) by omega]

/-- C3: `generateLotoTicket` surfaces its terminal error exactly when all
100 attempts of the budget fail (throw internally or fail validation), and
not before: the first attempt within the budget that builds a grid passing
validation has that grid returned. -/
theorem generation_exhaustion_iff (tapes : Nat → RandTape) (fuel : Nat) :
    (generateLotoTicket tapes fuel = none ↔
      ∀ k, k < 100 → attemptResult (tapes k) fuel = none) ∧
      (∀ k, k < 100 → (∀ j, j < k → attemptResult (tapes j) fuel = none) →
        ∀ g, attemptResult (tapes k) fuel = some g →
          generateLotoTicket tapes fuel = some g) := by
  constructor
  · have h := genLoop_none_iff tapes fuel 100 0
    simpa [generateLotoTicket] using h
  · intro k hk hprev g hg
    have h := genLoop_first_some tapes fuel 100 0 k hk (by simpa using hprev) g
      (by simpa using hg)
    simpa [generateLotoTicket] using h

/-- C3 witness: on the always-succeeding tape the first attempt's grid is
returned; on the constant-zero tape with no loop fuel all 100 attempts fail
and the terminal error is raised. -/
theorem generation_exhaustion_iff_witness :
    generateLotoTicket (fun _ => tape0) 10 = some grid0 ∧
      generateLotoTicket (fun _ _ => 0) 0 = none :=
  ⟨(generation_exhaustion_iff (fun _ => tape0) 10).2 0 (by decide)
      (fun j hj => absurd hj (by omega)) grid0 (by decide),
    (generation_exhaustion_iff (fun _ _ => 0) 0).1.mpr (fun k _ => by decide)⟩

/-! ## C5: the count-distribution postcondition -/

lemma sum_set_getD (l : List Nat) :
    ∀ i v, i < l.length → (l.set i v).sum + l.getD i 0 = l.sum + v := by
  induction l with
  | nil => intro i v h; simp at h
  | cons a t ih =>
    intro i v h
    cases i with
    | zero => simp [List.set_cons_zero, List.sum_cons, List.getD_cons_zero]; omega
    | succ i' =>
      rw [List.set_cons_succ, List.sum_cons, List.sum_cons, List.getD_cons_succ]
      have hi : i' < t.length := by simpa using h
      have := ih i' v hi
      omega

lemma distLoop_invariant (s : RandTape) :
    ∀ (fuel p remaining : Nat) (counts counts' : List Nat) (p' : Nat),
      counts.length = 9 → (∀ x ∈ counts, 1 ≤ x ∧ x ≤ 3) → counts.sum + remaining = 15 →
      distLoop s fuel p counts remaining = some (counts', p') →
      counts'.length = 9 ∧ counts'.sum = 15 ∧ ∀ x ∈ counts', 1 ≤ x ∧ x ≤ 3 := by
  intro fuel
  induction fuel with
  | zero =>
    intro p remaining counts counts' p' _ _ _ hrun
    simp [distLoop] at hrun
  | succ f ih =>
    intro p remaining counts counts' p' hlen hmem hsum hrun
    rw [distLoop] at hrun
    by_cases h0 : remaining = 0
    · subst h0
      rw [if_pos rfl] at hrun
      obtain ⟨rfl, rfl⟩ : counts = counts' ∧ p = p' := by
        constructor <;> injection hrun with h; exacts [(Prod.mk.injEq _ _ _ _ ▸ h).1,
          (Prod.mk.injEq _ _ _ _ ▸ h).2]
      exact ⟨hlen, by omega, hmem⟩
    · rw [if_neg h0] at hrun
      simp only at hrun
      by_cases hc : counts.getD (s p % COLS) 0 < 3
      · rw [if_pos hc] at hrun
        have hcol : s p % COLS < counts.length := by
          rw [hlen]
          exact Nat.mod_lt _ (by norm_num [COLS])
        refine ih _ _ _ _ _ (by rw [List.length_set, hlen]) ?_ ?_ hrun
        · intro x hx
          rcases List.mem_or_eq_of_mem_set hx with hx' | rfl
          · exact hmem x hx'
          · exact ⟨by omega, by omega⟩
        · have hset := sum_set_getD counts (s p % COLS)
            (counts.getD (s p % COLS) 0 + 1) hcol
          omega
      · rw [if_neg hc] at hrun
        exact ih _ _ _ _ _ hlen hmem hsum hrun

/-- C5: whenever `distributeNumbersAcrossColumns` returns, the result is a
9-element count vector summing to exactly 15 with every entry in [1, 3]. -/
theorem distribute_counts_postcondition (fuel : Nat) (s : RandTape) (p : Nat)
    (counts : List Nat) (p' : Nat)
    (h : distributeNumbersAcrossColumns fuel s p = some (counts, p')) :
    counts.length = 9 ∧ counts.sum = 15 ∧ ∀ x ∈ counts, 1 ≤ x ∧ x ≤ 3 := by
  refine distLoop_invariant s fuel p (TOTAL_NUMBERS - COLS) (List.replicate COLS 1)
    counts p' (by simp [COLS]) ?_ (by simp [COLS, TOTAL_NUMBERS]) h
  intro x hx
  have := List.eq_of_mem_replicate hx
  omega

/-- C5 witness: a concrete successful run of the distribution loop. -/
theorem distribute_counts_postcondition_witness :
    distributeNumbersAcrossColumns 10 tape0 0 = some ([3, 3, 3, 1, 1, 1, 1, 1, 1], 6) ∧
      ([3, 3, 3, 1, 1, 1, 1, 1, 1] : List Nat).length = 9 ∧
        ([3, 3, 3, 1, 1, 1, 1, 1, 1] : List Nat).sum = 15 ∧
        ∀ x ∈ ([3, 3, 3, 1, 1, 1, 1, 1, 1] : List Nat), 1 ≤ x ∧ x ≤ 3 :=
  ⟨by decide, distribute_counts_postcondition 10 tape0 0 _ 6 (by decide)⟩

/-! ## C6: the row-assignment postconditions -/

lemma getD_set_if (l : List Nat) (i v : Nat) (hi : i < l.length) (r : Nat) :
    (l.set i v).getD r 0 = if r = i then v else l.getD r 0 := by
  by_cases h : r = i
  · subst h
    simp [List.getD_eq_getElem?_getD, List.getElem?_set_self, hi]
  · simp [List.getD_eq_getElem?_getD, List.getElem?_set_ne (fun he => h he.symm), h]

lemma getD_mod_mem (l : List Nat) (h : l.length ≠ 0) (k : Nat) :
    l.getD (k % l.length) 0 ∈ l := by
  have hlt : k % l.length < l.length := Nat.mod_lt _ (by omega)
  rw [List.getD_eq_getElem?_getD, List.getElem?_eq_getElem hlt, Option.getD_some]
  exact List.getElem_mem hlt

lemma assignRowsForColumn_spec (s : RandTape) :
    ∀ (count p : Nat) (rowCounts rows : List Nat) (out : List Nat × List Nat × Nat),
      rowCounts.length = 3 → (∀ r ∈ rows, r < 3) →
      assignRowsForColumn s count p rowCounts rows = .ok out →
      (∃ t, out.1 = rows ++ t) ∧
        out.1.length = rows.length + count ∧
        (rows.Nodup → out.1.Nodup) ∧
        (∀ r ∈ out.1, r < 3) ∧
        out.2.1.length = 3 ∧
        (∀ r, out.2.1.getD r 0 + rows.count r = rowCounts.getD r 0 + out.1.count r) := by
  intro count
  induction count with
  | zero =>
    intro p rowCounts rows out hlen hmem hrun
    simp only [assignRowsForColumn] at hrun
    cases hrun
    exact ⟨⟨[], by simp⟩, by simp, fun h => h, hmem, hlen, fun r => rfl⟩
  | succ c ih =>
    intro p rowCounts rows out hlen hmem hrun
    simp only [assignRowsForColumn] at hrun
    by_cases hempty :
        ([0, 1, 2].filter fun row =>
          decide (rowCounts.getD row 0 < NUMBERS_PER_ROW) && !(rows.contains row)).length = 0
    · rw [if_pos hempty] at hrun
      cases hrun
    · rw [if_neg hempty] at hrun
      set validRows := [0, 1, 2].filter fun row =>
        decide (rowCounts.getD row 0 < NUMBERS_PER_ROW) && !(rows.contains row) with hvr
      set sel := validRows.getD (s p % validRows.length) 0 with hsel
      have hselmem : sel ∈ validRows := getD_mod_mem validRows hempty (s p)
      have hsel3 : sel < 3 := by
        have h012 := List.mem_of_mem_filter hselmem
        simp only [List.mem_cons, List.mem_singleton, List.not_mem_nil, or_false] at h012
        omega
      have hselfree : sel ∉ rows := by
        have hp := List.of_mem_filter hselmem
        simp only [Bool.and_eq_true, Bool.not_eq_true'] at hp
        simpa using hp.2
      have hout := ih (p + 1) (rowCounts.set sel (rowCounts.getD sel 0 + 1))
        (rows ++ [sel]) out (by rw [List.length_set, hlen]) ?_ hrun
      · obtain ⟨⟨t, ht⟩, hlen', hnodup, hmem3, hrclen, hcnt⟩ := hout
        refine ⟨⟨sel :: t, by simpa using ht⟩,
          by rw [hlen', List.length_append, List.length_singleton]; omega,
          ?_, hmem3, hrclen, ?_⟩
        · intro hnd
          refine hnodup ?_
          simp [List.nodup_append, hnd, hselfree]
        · intro r
          have hc := hcnt r
          rw [List.count_append] at hc
          have hset := getD_set_if rowCounts sel (rowCounts.getD sel 0 + 1)
            (by omega) r
          by_cases hr : r = sel
          · subst hr
            rw [hset, if_pos rfl] at hc
            have h1 : List.count sel [sel] = 1 := by simp [List.count_singleton]
            omega
          · rw [hset, if_neg hr] at hc
            have h0 : List.count r [sel] = 0 := by
              simp [List.count_singleton, Ne.symm hr]
            omega
      · intro r hr
        rcases List.mem_append.mp hr with h | h
        · exact hmem r h
        · simp only [List.mem_singleton] at h
          omega

lemma assignColumns_spec (s : RandTape) (counts : List Nat) :
    ∀ (n col p : Nat) (rowCounts : List Nat) (acc : List (List Nat))
      (out : List (List Nat) × List Nat × Nat),
      rowCounts.length = 3 →
      assignColumns s counts n col p rowCounts acc = .ok out →
      ∃ newCols : List (List Nat),
        out.1 = acc ++ newCols ∧
          newCols.length = n ∧
          (∀ i, i < n → (newCols.getD i []).Pairwise (· < ·) ∧
            (∀ r ∈ newCols.getD i [], r < 3) ∧
            (newCols.getD i []).length = counts.getD (col + i) 0) ∧
          out.2.1.length = 3 ∧
          (∀ r, out.2.1.getD r 0 =
            rowCounts.getD r 0 + (newCols.map fun l => l.count r).sum) := by
  intro n
  induction n with
  | zero =>
    intro col p rowCounts acc out hlen hrun
    simp only [assignColumns] at hrun
    cases hrun
    exact ⟨[], by simp, rfl, fun i hi => absurd hi (by omega), hlen, fun r => by simp⟩
  | succ m ih =>
    intro col p rowCounts acc out hlen hrun
    simp only [assignColumns] at hrun
    cases hInner : assignRowsForColumn s (counts.getD col 0) p rowCounts [] with
    | error e => rw [hInner] at hrun; cases hrun
    | ok res =>
      obtain ⟨rows, rowCounts1, p1⟩ := res
      rw [hInner] at hrun
      obtain ⟨-, hlenrows, hnodup, hmem3, hrc1len, hcnt1⟩ :=
        assignRowsForColumn_spec s (counts.getD col 0) p rowCounts []
          (rows, rowCounts1, p1) hlen (by simp) hInner
      simp only [List.length_nil, Nat.zero_add, List.count_nil] at hlenrows hcnt1
      obtain ⟨newCols', hout, hlen', hprops, hrclen', hcnt'⟩ :=
        ih (col + 1) p1 rowCounts1 (acc ++ [rows.insertionSort (· ≤ ·)]) out
          hrc1len hrun
    -- the new column in sorted form
      have hperm := List.perm_insertionSort (· ≤ ·) rows
      have hsorted := List.sorted_insertionSort (· ≤ ·) rows
      have hnd : (rows.insertionSort (· ≤ ·)).Nodup :=
        hperm.nodup_iff.mpr (hnodup List.nodup_nil)
      refine ⟨rows.insertionSort (· ≤ ·) :: newCols', by simpa using hout,
        by simpa using hlen', ?_, hrclen', ?_⟩
      · intro i hi
        cases i with
        | zero =>
          refine ⟨hsorted.lt_of_le hnd, ?_, ?_⟩
          · intro r hr
            exact hmem3 r (hperm.mem_iff.mp hr)
          · simp only [List.getD_cons_zero, Nat.add_zero]
            rw [hperm.length_eq, hlenrows]
        | succ j =>
          have hp := hprops j (by omega)
          rwa [show col + 1 + j = col + (j + 1) by omega] at hp
      · intro r
        have h1 := hcnt' r
        have h2 := hcnt1 r
        have h3 := hperm.count_eq r
        simp only [List.map_cons, List.sum_cons]
        omega

/-- C6: for every count vector, `assignRowsToColumns` either raises one of
its two constraint errors or returns normally; on normal return each
column's row list is strictly ascending (hence pairwise distinct) with
length equal to that column's count, and each of the 3 rows is used exactly
5 times across all columns; the `noEligibleRow` error is raised exactly
when the column-processing loop hits a column with no eligible row, and the
final-check error exactly when the processed assignment's per-row totals
are not all 5. -/
lemma assignRowsForColumn_error_eq (s : RandTape) :
    ∀ (count p : Nat) (rowCounts rows : List Nat) (e : AssignError),
      assignRowsForColumn s count p rowCounts rows = .error e → e = .noEligibleRow := by
  intro count
  induction count with
  | zero =>
    intro p rowCounts rows e hrun
    simp only [assignRowsForColumn] at hrun
    cases hrun
  | succ c ih =>
    intro p rowCounts rows e hrun
    simp only [assignRowsForColumn] at hrun
    by_cases hempty :
        ([0, 1, 2].filter fun row =>
          decide (rowCounts.getD row 0 < NUMBERS_PER_ROW) && !(rows.contains row)).length = 0
    · rw [if_pos hempty] at hrun
      injection hrun with h
      exact h.symm
    · rw [if_neg hempty] at hrun
      exact ih _ _ _ _ hrun

lemma assignColumns_error_eq (s : RandTape) (counts : List Nat) :
    ∀ (n col p : Nat) (rowCounts : List Nat) (acc : List (List Nat)) (e : AssignError),
      assignColumns s counts n col p rowCounts acc = .error e → e = .noEligibleRow := by
  intro n
  induction n with
  | zero =>
    intro col p rowCounts acc e hrun
    simp only [assignColumns] at hrun
    cases hrun
  | succ m ih =>
    intro col p rowCounts acc e hrun
    simp only [assignColumns] at hrun
    cases hInner : assignRowsForColumn s (counts.getD col 0) p rowCounts [] with
    | error e' =>
      rw [hInner] at hrun
      injection hrun with h
      subst h
      exact assignRowsForColumn_error_eq s _ _ _ _ _ hInner
    | ok res =>
      obtain ⟨rows, rowCounts1, p1⟩ := res
      rw [hInner] at hrun
      exact ih _ _ _ _ _ hrun

theorem assignRows_postcondition (columnCounts : List Nat) (s : RandTape) (p : Nat) :
    (∀ assignments p',
      assignRowsToColumns columnCounts s p = .ok (assignments, p') →
        assignments.length = 9 ∧
          (∀ c, c < 9 → (assignments.getD c []).Pairwise (· < ·) ∧
            (assignments.getD c []).Nodup ∧
            (assignments.getD c []).length = columnCounts.getD c 0) ∧
          (∀ r, r < 3 → (assignments.map fun l => l.count r).sum = 5)) ∧
      (assignRowsToColumns columnCounts s p = .error .noEligibleRow ↔
        assignColumns s columnCounts 9 0 p [0, 0, 0] [] = .error .noEligibleRow) ∧
      (assignRowsToColumns columnCounts s p = .error .rowCountMismatch ↔
        ∃ a rc p', assignColumns s columnCounts 9 0 p [0, 0, 0] [] = .ok (a, rc, p') ∧
          ¬(∀ r, r < 3 → (a.map fun l => l.count r).sum = 5)) := by
  have hmain : ∀ a rc p', assignColumns s columnCounts 9 0 p [0, 0, 0] [] = .ok (a, rc, p') →
      a.length = 9 ∧
        (∀ c, c < 9 → (a.getD c []).Pairwise (· < ·) ∧
          (a.getD c []).length = columnCounts.getD c 0) ∧
        (∀ r, rc.getD r 0 = (a.map fun l => l.count r).sum) := by
    intro a rc p' hrun
    obtain ⟨newCols, hout, hlen', hprops, -, hcnt⟩ :=
      assignColumns_spec s columnCounts 9 0 p [0, 0, 0] [] (a, rc, p') rfl hrun
    simp only [List.nil_append] at hout
    subst hout
    refine ⟨by simpa using hlen', ?_, ?_⟩
    · intro c hc
      have hp := hprops c (by omega)
      rw [Nat.zero_add] at hp
      exact ⟨hp.1, hp.2.2⟩
    · intro r
      have h := hcnt r
      have h0 : ([0, 0, 0] : List Nat).getD r 0 = 0 := by
        rcases r with _ | _ | _ | r <;> rfl
      rw [h0] at h
      simpa using h
  cases hA : assignColumns s columnCounts COLS 0 p [0, 0, 0] [] with
  | error e =>
    have heq : assignRowsToColumns columnCounts s p = .error e := by
      unfold assignRowsToColumns
      rw [hA]
    have he : e = .noEligibleRow := assignColumns_error_eq s columnCounts _ _ _ _ _ _ hA
    subst he
    rw [show COLS = 9 from rfl] at hA
    refine ⟨?_, ?_, ?_⟩
    · intro a p' h
      rw [heq] at h
      cases h
    · rw [heq, hA]
      simp
    · rw [heq]
      constructor
      · intro h
        injection h with h'
        cases h'
      · rintro ⟨a, rc, p', hok, -⟩
        rw [hA] at hok
        cases hok
  | ok res =>
    obtain ⟨a, rc, p1⟩ := res
    have heq : assignRowsToColumns columnCounts s p =
        if (List.range ROWS).all (fun row => decide (rc.getD row 0 = NUMBERS_PER_ROW)) then
          .ok (a, p1)
        else .error .rowCountMismatch := by
      unfold assignRowsToColumns
      rw [hA]
    rw [show COLS = 9 from rfl] at hA
    obtain ⟨halen, hacols, harc⟩ := hmain a rc p1 hA
    by_cases hcheck : (List.range ROWS).all
        (fun row => decide (rc.getD row 0 = NUMBERS_PER_ROW)) = true
    · rw [if_pos hcheck] at heq
      have hrc5 : ∀ r, r < 3 → rc.getD r 0 = 5 := by
        intro r hr
        have hq := (List.all_eq_true.mp hcheck) r
          (List.mem_range.mpr (by simpa [ROWS] using hr))
        simpa [NUMBERS_PER_ROW] using hq
      refine ⟨?_, ?_, ?_⟩
      · intro assignments p' h
        rw [heq] at h
        injection h with h'
        injection h' with h1 h2
        subst h1
        refine ⟨halen, ?_, ?_⟩
        · intro c hc
          obtain ⟨hpw, hl⟩ := hacols c hc
          exact ⟨hpw, hpw.imp ne_of_lt, hl⟩
        · intro r hr
          rw [← harc r]
          exact hrc5 r hr
      · rw [heq, hA]
        constructor
        · intro h
          cases h
        · intro h
          cases h
      · rw [heq]
        constructor
        · intro h
          cases h
        · rintro ⟨a', rc', p'', hok, hbad⟩
          rw [hA] at hok
          injection hok with h'
          injection h' with h1 h2
          injection h2 with h3 h4
          subst h1
          subst h3
          refine absurd ?_ hbad
          intro r hr
          rw [← harc r]
          exact hrc5 r hr
    · rw [if_neg hcheck] at heq
      have hbadrow : ¬(∀ r, r < 3 → (a.map fun l => l.count r).sum = 5) := by
        intro hall
        refine hcheck (List.all_eq_true.mpr ?_)
        intro r hrmem
        have hr : r < 3 := by simpa [ROWS] using List.mem_range.mp hrmem
        have hs := hall r hr
        rw [← harc r] at hs
        simpa [NUMBERS_PER_ROW] using hs
      refine ⟨?_, ?_, ?_⟩
      · intro assignments p' h
        rw [heq] at h
        cases h
      · rw [heq, hA]
        constructor
        · intro h
          injection h with h'
          cases h'
        · intro h
          cases h
      · rw [heq]
        constructor
        · intro _
          exact ⟨a, rc, p1, hA, hbadrow⟩
        · intro _
          rfl

/-- C6 witness: a concrete successful run of the row assignment on the
count vector `[3,3,3,1,1,1,1,1,1]` and the constant-zero tape. -/
theorem assignRows_postcondition_witness :
    assignRowsToColumns [3, 3, 3, 1, 1, 1, 1, 1, 1] (fun _ => 0) 0 =
        .ok ([[0, 1, 2], [0, 1, 2], [0, 1, 2], [0], [0], [1], [1], [2], [2]], 15) ∧
      ([[0, 1, 2], [0, 1, 2], [0, 1, 2], [0], [0], [1], [1], [2], [2]] :
        List (List Nat)).length = 9 :=
  ⟨by rfl,
    ((assignRows_postcondition [3, 3, 3, 1, 1, 1, 1, 1, 1] (fun _ => 0) 0).1
      [[0, 1, 2], [0, 1, 2], [0, 1, 2], [0], [0], [1], [1], [2], [2]] 15 (by rfl)).1⟩


/-! ## C7: `buildGrid` places values at assigned rows -/

lemma getD_set_ne_any {α : Type} (l : List α) (i : Nat) (v : α) (r : Nat) (d : α)
    (h : r ≠ i) : (l.set i v).getD r d = l.getD r d := by
  simp [List.getD_eq_getElem?_getD, List.getElem?_set_ne (fun he => h he.symm)]

lemma getD_set_self_any {α : Type} (l : List α) (i : Nat) (v : α) (d : α)
    (h : i < l.length) : (l.set i v).getD i d = v := by
  simp [List.getD_eq_getElem?_getD, List.getElem?_set_self, h]

lemma getD_mem_of_lt {α : Type} (l : List α) (d : α) (i : Nat) (h : i < l.length) :
    l.getD i d ∈ l := by
  rw [List.getD_eq_getElem?_getD, List.getElem?_eq_getElem h, Option.getD_some]
  exact List.getElem_mem h

lemma cellAt_setCell_ne_row (g : TicketGrid) (r0 c0 r c : Nat) (v : TicketCell)
    (h : r ≠ r0) : cellAt (setCell g r0 c0 v) r c = cellAt g r c := by
  unfold cellAt setCell
  rw [getD_set_ne_any _ _ _ _ _ h]

lemma cellAt_setCell_ne_col (g : TicketGrid) (r0 c0 r c : Nat) (v : TicketCell)
    (h : c ≠ c0) : cellAt (setCell g r0 c0 v) r c = cellAt g r c := by
  unfold cellAt setCell
  by_cases hr : r = r0
  · subst hr
    by_cases hlt : r < g.length
    · rw [getD_set_self_any _ _ _ _ hlt, getD_set_ne_any _ _ _ _ _ h]
    · rw [List.set_eq_of_length_le (by omega)]
  · rw [getD_set_ne_any _ _ _ _ _ hr]

lemma cellAt_setCell_self (g : TicketGrid) (r0 c0 : Nat) (v : TicketCell)
    (hr : r0 < g.length) (hc : c0 < (g.getD r0 []).length) :
    cellAt (setCell g r0 c0 v) r0 c0 = v := by
  unfold cellAt setCell
  rw [getD_set_self_any _ _ _ _ hr, getD_set_self_any _ _ _ _ hc]

lemma setCell_shape (g : TicketGrid) (hg : Inv1Shape g) (r0 c0 : Nat) (hr : r0 < 3)
    (v : TicketCell) : Inv1Shape (setCell g r0 c0 v) := by
  obtain ⟨h3, h9⟩ := hg
  refine ⟨by simpa [setCell] using h3, ?_⟩
  intro row hrow
  rcases List.mem_or_eq_of_mem_set hrow with h | rfl
  · exact h9 row h
  · rw [List.length_set]
    exact h9 _ (getD_mem_of_lt g [] r0 (by omega))

lemma placeColumn_shape (c : Nat) :
    ∀ (rows : List Nat) (ns : List Int) (g : TicketGrid),
      Inv1Shape g → (∀ r ∈ rows, r < 3) → Inv1Shape (placeColumn g c rows ns) := by
  intro rows
  induction rows with
  | nil => intro ns g hg _; simpa [placeColumn] using hg
  | cons r0 rs ih =>
    intro ns g hg hmem
    simp only [placeColumn]
    exact ih ns.tail _ (setCell_shape g hg r0 c (hmem r0 (by simp)) _)
      (fun r hr => hmem r (by simp [hr]))

lemma cellAt_placeColumn_ne_col (c c' : Nat) (h : c' ≠ c) :
    ∀ (rows : List Nat) (ns : List Int) (g : TicketGrid) (r : Nat),
      cellAt (placeColumn g c rows ns) r c' = cellAt g r c' := by
  intro rows
  induction rows with
  | nil => intro ns g r; simp [placeColumn]
  | cons r0 rs ih =>
    intro ns g r
    simp only [placeColumn]
    rw [ih, cellAt_setCell_ne_col _ _ _ _ _ _ h]

lemma cellAt_placeColumn_not_mem (c : Nat) :
    ∀ (rows : List Nat) (ns : List Int) (g : TicketGrid) (r : Nat), r ∉ rows →
      cellAt (placeColumn g c rows ns) r c = cellAt g r c := by
  intro rows
  induction rows with
  | nil => intro ns g r _; simp [placeColumn]
  | cons r0 rs ih =>
    intro ns g r hr
    simp only [placeColumn]
    have hr0 : r ≠ r0 := fun h => hr (by simp [h])
    have hrs : r ∉ rs := fun h => hr (by simp [h])
    rw [ih ns.tail _ r hrs, cellAt_setCell_ne_row _ _ _ _ _ _ hr0]

lemma cellAt_placeColumn_hit (c : Nat) (hc : c < 9) :
    ∀ (rows : List Nat) (ns : List Int) (g : TicketGrid),
      Inv1Shape g → rows.Nodup → (∀ r ∈ rows, r < 3) →
      ∀ i, i < rows.length →
        cellAt (placeColumn g c rows ns) (rows.getD i 0) c = some (ns.getD i 0) := by
  intro rows
  induction rows with
  | nil => intro ns g _ _ _ i hi; exact absurd hi (by simp)
  | cons r0 rs ih =>
    intro ns g hg hnd hmem i hi
    simp only [placeColumn]
    obtain ⟨hr0rs, hndrs⟩ := List.nodup_cons.mp hnd
    cases i with
    | zero =>
      simp only [List.getD_cons_zero]
      rw [cellAt_placeColumn_not_mem c rs ns.tail _ r0 hr0rs]
      have hr03 : r0 < 3 := hmem r0 (by simp)
      have hlen : r0 < g.length := by rw [hg.1]; omega
      have hrowlen : c < (g.getD r0 []).length := by
        rw [hg.2 _ (getD_mem_of_lt g [] r0 hlen)]
        omega
      rw [cellAt_setCell_self g r0 c _ hlen hrowlen]
      congr 1
      cases ns <;> rfl
    | succ j =>
      simp only [List.getD_cons_succ]
      have hres := ih ns.tail (setCell g r0 c (some (ns.headD 0)))
        (setCell_shape g hg r0 c (hmem r0 (by simp)) _) hndrs
        (fun r hr => hmem r (by simp [hr])) j (by simpa using hi)
      rw [hres]
      congr 1
      cases ns <;> rfl

lemma cellAt_foldl_not_mem (A : List (List Nat)) (N : List (List Int)) (c : Nat) :
    ∀ (cols : List Nat) (g : TicketGrid) (r : Nat), (∀ x ∈ cols, x ≠ c) →
      cellAt (cols.foldl
        (fun grid col => placeColumn grid col (A.getD col []) (N.getD col [])) g) r c =
        cellAt g r c := by
  intro cols
  induction cols with
  | nil => intro g r _; rfl
  | cons x xs ih =>
    intro g r hx
    rw [List.foldl_cons, ih _ r (fun y hy => hx y (by simp [hy]))]
    exact cellAt_placeColumn_ne_col x c (Ne.symm (hx x (by simp))) _ _ _ _

lemma foldl_place_shape (A : List (List Nat)) (N : List (List Int)) :
    ∀ (cols : List Nat) (g : TicketGrid), Inv1Shape g →
      (∀ x ∈ cols, ∀ r ∈ A.getD x [], r < 3) →
      Inv1Shape (cols.foldl
        (fun grid col => placeColumn grid col (A.getD col []) (N.getD col [])) g) := by
  intro cols
  induction cols with
  | nil => intro g hg _; exact hg
  | cons x xs ih =>
    intro g hg hrows
    rw [List.foldl_cons]
    exact ih _ (placeColumn_shape x _ _ g hg (hrows x (by simp)))
      (fun y hy => hrows y (by simp [hy]))

lemma cellAt_foldl_miss (A : List (List Nat)) (N : List (List Int)) (c : Nat) :
    ∀ (cols : List Nat) (g : TicketGrid) (r : Nat), cols.Nodup → r ∉ A.getD c [] →
      cellAt (cols.foldl
        (fun grid col => placeColumn grid col (A.getD col []) (N.getD col [])) g) r c =
        cellAt g r c := by
  intro cols
  induction cols with
  | nil => intro g r _ _; rfl
  | cons x xs ih =>
    intro g r hnd hr
    obtain ⟨hxs, hndxs⟩ := List.nodup_cons.mp hnd
    rw [List.foldl_cons]
    by_cases hxc : x = c
    · subst hxc
      rw [cellAt_foldl_not_mem A N x xs _ r (fun y hy h => hxs (h ▸ hy))]
      exact cellAt_placeColumn_not_mem x _ _ _ _ hr
    · rw [ih _ r hndxs hr]
      exact cellAt_placeColumn_ne_col x c (fun h => hxc h.symm) _ _ _ _

lemma cellAt_foldl_hit (A : List (List Nat)) (N : List (List Int)) (c : Nat) (hc : c < 9) :
    ∀ (cols : List Nat) (g : TicketGrid), cols.Nodup → c ∈ cols → Inv1Shape g →
      (∀ x ∈ cols, ∀ r ∈ A.getD x [], r < 3) → (A.getD c []).Nodup →
      ∀ i, i < (A.getD c []).length →
        cellAt (cols.foldl
          (fun grid col => placeColumn grid col (A.getD col []) (N.getD col [])) g)
          ((A.getD c []).getD i 0) c = some ((N.getD c []).getD i 0) := by
  intro cols
  induction cols with
  | nil => intro g _ hcmem; exact absurd hcmem (by simp)
  | cons x xs ih =>
    intro g hnd hcmem hg hrows hndA i hi
    obtain ⟨hxs, hndxs⟩ := List.nodup_cons.mp hnd
    rw [List.foldl_cons]
    by_cases hxc : x = c
    · subst hxc
      rw [cellAt_foldl_not_mem A N x xs _ _ (fun y hy h => hxs (h ▸ hy))]
      exact cellAt_placeColumn_hit x hc _ _ g hg hndA (hrows x (by simp)) i hi
    · have hcxs : c ∈ xs := by
        rcases List.mem_cons.mp hcmem with h | h
        · exact absurd h.symm hxc
        · exact h
      exact ih _ hndxs hcxs (placeColumn_shape x _ _ g hg (hrows x (by simp)))
        (fun y hy => hrows y (by simp [hy])) hndA i hi

lemma inv1_emptyGrid : Inv1Shape emptyGrid := by decide

lemma getD_replicate_none : ∀ (n c : Nat),
    (List.replicate n (none : TicketCell)).getD c none = none := by
  intro n
  induction n with
  | zero => intro c; rfl
  | succ m ih =>
    intro c
    cases c with
    | zero => rfl
    | succ c' => simpa [List.replicate_succ] using ih c'

lemma cellAt_emptyGrid (r c : Nat) : cellAt emptyGrid r c = none := by
  have hrepr : emptyGrid =
      [List.replicate 9 none, List.replicate 9 none, List.replicate 9 none] := rfl
  rw [cellAt, hrepr]
  rcases r with _ | _ | _ | r
  · rw [List.getD_cons_zero]
    exact getD_replicate_none 9 c
  · rw [List.getD_cons_succ, List.getD_cons_zero]
    exact getD_replicate_none 9 c
  · rw [List.getD_cons_succ, List.getD_cons_succ, List.getD_cons_zero]
    exact getD_replicate_none 9 c
  · rfl

lemma sorted_lt_three : ∀ (l : List Nat), l.Pairwise (· < ·) → (∀ r ∈ l, r < 3) →
    l = [] ∨ l = [0] ∨ l = [1] ∨ l = [2] ∨
      l = [0, 1] ∨ l = [0, 2] ∨ l = [1, 2] ∨ l = [0, 1, 2] := by
  intro l hp h3
  match l, hp, h3 with
  | [], _, _ => exact Or.inl rfl
  | [a], _, h3 =>
    have ha := h3 a (by simp)
    interval_cases a <;> simp
  | [a, b], hp, h3 =>
    have ha := h3 a (by simp)
    have hb := h3 b (by simp)
    have hab : a < b := (List.pairwise_cons.mp hp).1 b (by simp)
    interval_cases a <;> interval_cases b <;> simp_all
  | [a, b, c2], hp, h3 =>
    have ha := h3 a (by simp)
    have hb := h3 b (by simp)
    have hc2 := h3 c2 (by simp)
    obtain ⟨h1, hp'⟩ := List.pairwise_cons.mp hp
    have hab : a < b := h1 b (by simp)
    have hbc : b < c2 := (List.pairwise_cons.mp hp').1 c2 (by simp)
    interval_cases a <;> interval_cases b <;> interval_cases c2 <;> simp_all
  | a :: b :: c2 :: d :: t, hp, h3 =>
    exfalso
    obtain ⟨h1, hp1⟩ := List.pairwise_cons.mp hp
    obtain ⟨h2, hp2⟩ := List.pairwise_cons.mp hp1
    obtain ⟨h3', _⟩ := List.pairwise_cons.mp hp2
    have hab : a < b := h1 b (by simp)
    have hbc : b < c2 := h2 c2 (by simp)
    have hcd : c2 < d := h3' d (by simp)
    have hd := h3 d (by simp)
    omega

lemma columnValues_of_cells (g : TicketGrid) (c : Nat) (o0 o1 o2 : TicketCell)
    (h0 : cellAt g 0 c = o0) (h1 : cellAt g 1 c = o1) (h2 : cellAt g 2 c = o2) :
    columnValues g c = o0.toList ++ (o1.toList ++ o2.toList) := by
  simp only [columnValues, show ROWS = 3 from rfl, range_three,
    List.filterMap_cons, List.filterMap_nil]
  rw [cellAt] at h0 h1 h2
  rw [h0, h1, h2]
  cases o0 <;> cases o1 <;> cases o2 <;> simp

/-- C7: if every column's row list is strictly ascending with rows below 3
and its value list is strictly ascending of the same length, then
`buildGrid` puts the i-th value of each column at (i-th assigned row,
column), leaves every other cell empty, and each column read top-to-bottom
is exactly its (strictly ascending) value list. -/
theorem buildGrid_spec (A : List (List Nat)) (N : List (List Int))
    (hA : A.length = 9) (hN : N.length = 9)
    (hcols : ∀ c, c < 9 → (A.getD c []).Pairwise (· < ·) ∧
      (∀ r ∈ A.getD c [], r < 3) ∧ (N.getD c []).Pairwise (· < ·) ∧
      (A.getD c []).length = (N.getD c []).length) :
    (∀ c, c < 9 → ∀ i, i < (A.getD c []).length →
      cellAt (buildGrid A N) ((A.getD c []).getD i 0) c = some ((N.getD c []).getD i 0)) ∧
      (∀ r c, r < 3 → c < 9 → r ∉ A.getD c [] → cellAt (buildGrid A N) r c = none) ∧
      (∀ c, c < 9 → columnValues (buildGrid A N) c = N.getD c [] ∧
        (columnValues (buildGrid A N) c).Pairwise (· < ·)) := by
  have hrows3 : ∀ x ∈ List.range 9, ∀ r ∈ A.getD x [], r < 3 :=
    fun x hx => (hcols x (List.mem_range.mp hx)).2.1
  have hhit : ∀ c, c < 9 → ∀ i, i < (A.getD c []).length →
      cellAt (buildGrid A N) ((A.getD c []).getD i 0) c =
        some ((N.getD c []).getD i 0) := by
    intro c hc i hi
    unfold buildGrid
    rw [show COLS = 9 from rfl]
    exact cellAt_foldl_hit A N c hc (List.range 9) emptyGrid (List.nodup_range 9)
      (List.mem_range.mpr hc) inv1_emptyGrid hrows3
      ((hcols c hc).1.imp ne_of_lt) i hi
  have hmiss : ∀ r c, c < 9 → r ∉ A.getD c [] → cellAt (buildGrid A N) r c = none := by
    intro r c hc hr
    unfold buildGrid
    rw [show COLS = 9 from rfl,
      cellAt_foldl_miss A N c (List.range 9) emptyGrid r (List.nodup_range 9) hr]
    exact cellAt_emptyGrid r c
  refine ⟨hhit, fun r c _ hc hr => hmiss r c hc hr, ?_⟩
  intro c hc
  obtain ⟨hpwA, hmemA, hpwN, hlen⟩ := hcols c hc
  rcases sorted_lt_three (A.getD c []) hpwA hmemA with h | h | h | h | h | h | h | h
  · have hn : N.getD c [] = [] := by
      rw [h] at hlen
      exact (List.length_eq_zero.mp hlen.symm)
    have heq : columnValues (buildGrid A N) c = N.getD c [] := by
      rw [columnValues_of_cells _ c none none none
        (hmiss 0 c hc (by rw [h]; simp)) (hmiss 1 c hc (by rw [h]; simp))
        (hmiss 2 c hc (by rw [h]; simp)), hn]
      rfl
    exact ⟨heq, by rw [heq]; exact hpwN⟩
  · have hl1 : (N.getD c []).length = 1 := by rw [← hlen, h]; rfl
    obtain ⟨n1, hn⟩ := List.length_eq_one.mp hl1
    have hc0 : cellAt (buildGrid A N) 0 c = some n1 := by
      have hv := hhit c hc 0 (by rw [h]; simp)
      rw [h, hn] at hv; exact hv
    have heq : columnValues (buildGrid A N) c = N.getD c [] := by
      rw [columnValues_of_cells _ c (some n1) none none hc0
        (hmiss 1 c hc (by rw [h]; simp)) (hmiss 2 c hc (by rw [h]; simp)), hn]
      rfl
    exact ⟨heq, by rw [heq]; exact hpwN⟩
  · have hl1 : (N.getD c []).length = 1 := by rw [← hlen, h]; rfl
    obtain ⟨n1, hn⟩ := List.length_eq_one.mp hl1
    have hc1 : cellAt (buildGrid A N) 1 c = some n1 := by
      have hv := hhit c hc 0 (by rw [h]; simp)
      rw [h, hn] at hv; exact hv
    have heq : columnValues (buildGrid A N) c = N.getD c [] := by
      rw [columnValues_of_cells _ c none (some n1) none
        (hmiss 0 c hc (by rw [h]; simp)) hc1 (hmiss 2 c hc (by rw [h]; simp)), hn]
      rfl
    exact ⟨heq, by rw [heq]; exact hpwN⟩
  · have hl1 : (N.getD c []).length = 1 := by rw [← hlen, h]; rfl
    obtain ⟨n1, hn⟩ := List.length_eq_one.mp hl1
    have hc2 : cellAt (buildGrid A N) 2 c = some n1 := by
      have hv := hhit c hc 0 (by rw [h]; simp)
      rw [h, hn] at hv; exact hv
    have heq : columnValues (buildGrid A N) c = N.getD c [] := by
      rw [columnValues_of_cells _ c none none (some n1)
        (hmiss 0 c hc (by rw [h]; simp)) (hmiss 1 c hc (by rw [h]; simp)) hc2, hn]
      rfl
    exact ⟨heq, by rw [heq]; exact hpwN⟩
  · have hl2 : (N.getD c []).length = 2 := by rw [← hlen, h]; rfl
    obtain ⟨n1, n2, hn⟩ := List.length_eq_two.mp hl2
    have hc0 : cellAt (buildGrid A N) 0 c = some n1 := by
      have hv := hhit c hc 0 (by rw [h]; simp)
      rw [h, hn] at hv; exact hv
    have hc1 : cellAt (buildGrid A N) 1 c = some n2 := by
      have hv := hhit c hc 1 (by rw [h]; simp)
      rw [h, hn] at hv; exact hv
    have heq : columnValues (buildGrid A N) c = N.getD c [] := by
      rw [columnValues_of_cells _ c (some n1) (some n2) none hc0 hc1
        (hmiss 2 c hc (by rw [h]; simp)), hn]
      rfl
    exact ⟨heq, by rw [heq]; exact hpwN⟩
  · have hl2 : (N.getD c []).length = 2 := by rw [← hlen, h]; rfl
    obtain ⟨n1, n2, hn⟩ := List.length_eq_two.mp hl2
    have hc0 : cellAt (buildGrid A N) 0 c = some n1 := by
      have hv := hhit c hc 0 (by rw [h]; simp)
      rw [h, hn] at hv; exact hv
    have hc2 : cellAt (buildGrid A N) 2 c = some n2 := by
      have hv := hhit c hc 1 (by rw [h]; simp)
      rw [h, hn] at hv; exact hv
    have heq : columnValues (buildGrid A N) c = N.getD c [] := by
      rw [columnValues_of_cells _ c (some n1) none (some n2) hc0
        (hmiss 1 c hc (by rw [h]; simp)) hc2, hn]
      rfl
    exact ⟨heq, by rw [heq]; exact hpwN⟩
  · have hl2 : (N.getD c []).length = 2 := by rw [← hlen, h]; rfl
    obtain ⟨n1, n2, hn⟩ := List.length_eq_two.mp hl2
    have hc1 : cellAt (buildGrid A N) 1 c = some n1 := by
      have hv := hhit c hc 0 (by rw [h]; simp)
      rw [h, hn] at hv; exact hv
    have hc2 : cellAt (buildGrid A N) 2 c = some n2 := by
      have hv := hhit c hc 1 (by rw [h]; simp)
      rw [h, hn] at hv; exact hv
    have heq : columnValues (buildGrid A N) c = N.getD c [] := by
      rw [columnValues_of_cells _ c none (some n1) (some n2)
        (hmiss 0 c hc (by rw [h]; simp)) hc1 hc2, hn]
      rfl
    exact ⟨heq, by rw [heq]; exact hpwN⟩
  · have hl3 : (N.getD c []).length = 3 := by rw [← hlen, h]; rfl
    obtain ⟨n1, n2, n3, hn⟩ := List.length_eq_three.mp hl3
    have hc0 : cellAt (buildGrid A N) 0 c = some n1 := by
      have hv := hhit c hc 0 (by rw [h]; simp)
      rw [h, hn] at hv; exact hv
    have hc1 : cellAt (buildGrid A N) 1 c = some n2 := by
      have hv := hhit c hc 1 (by rw [h]; simp)
      rw [h, hn] at hv; exact hv
    have hc2 : cellAt (buildGrid A N) 2 c = some n3 := by
      have hv := hhit c hc 2 (by rw [h]; simp)
      rw [h, hn] at hv; exact hv
    have heq : columnValues (buildGrid A N) c = N.getD c [] := by
      rw [columnValues_of_cells _ c (some n1) (some n2) (some n3) hc0 hc1 hc2, hn]
      rfl
    exact ⟨heq, by rw [heq]; exact hpwN⟩

/-- C7 witness: on the concrete assignment and numbers of `tape0`, the
single number 80 of column 8 lands at its assigned row 2, the other column-8
cells stay empty, and the column reads as its value list. -/
theorem buildGrid_spec_witness :
    cellAt (buildGrid assigns0 numbers0) 2 8 = some 80 ∧
      cellAt (buildGrid assigns0 numbers0) 0 8 = none ∧
      columnValues (buildGrid assigns0 numbers0) 8 = [(80 : Int)] := by
  obtain ⟨hhit, hmiss, hcolv⟩ := buildGrid_spec assigns0 numbers0 rfl rfl (by decide)
  exact ⟨hhit 8 (by decide) 0 (by decide), hmiss 0 8 (by decide) (by decide) (by decide),
    (hcolv 8 (by decide)).1⟩



/-! ## C4: termination of the attempt loop -/

lemma distLoop_const_zero_stuck :
    ∀ (fuel p remaining : Nat) (counts : List Nat),
      0 < counts.length → counts.getD 0 0 ≤ 3 → 3 < counts.getD 0 0 + remaining →
      distLoop (fun _ => 0) fuel p counts remaining = none := by
  intro fuel
  induction fuel with
  | zero => intros; rfl
  | succ f ih =>
    intro p remaining counts hpos h3 hsum
    have hrem : remaining ≠ 0 := by omega
    rw [distLoop, if_neg hrem]
    simp only [Nat.zero_mod]
    by_cases hc : counts.getD 0 0 < 3
    · rw [if_pos hc]
      refine ih _ _ _ (by rw [List.length_set]; omega) ?_ ?_
      · rw [getD_set_self_any _ _ _ _ hpos]
        omega
      · rw [getD_set_self_any _ _ _ _ hpos]
        omega
    · rw [if_neg hc]
      exact ih _ _ _ hpos h3 (by omega)

/-- C4 counterexample: it is not true that every random sequence makes the
count-distribution loop terminate.  The sequence that always draws column 0
fills that column after two top-ups and then rejects forever. -/
theorem distribution_termination_counterexample :
    ¬ ∀ s : RandTape, ∃ fuel, (distributeNumbersAcrossColumns fuel s 0).isSome := by
  intro hall
  obtain ⟨fuel, hf⟩ := hall (fun _ => 0)
  rw [distributeNumbersAcrossColumns,
    distLoop_const_zero_stuck fuel 0 (TOTAL_NUMBERS - COLS) (List.replicate COLS 1)
      (by decide) (by decide) (by decide)] at hf
  cases hf

lemma exists_nonfull (counts : List Nat) (remaining : Nat)
    (hlen : counts.length = 9) (hsum : counts.sum + remaining = 15)
    (hrem : remaining ≠ 0) : ∃ c, c < 9 ∧ counts.getD c 0 < 3 := by
  by_contra hno
  push_neg at hno
  have hbig : ∀ x ∈ counts, 3 ≤ x := by
    intro x hx
    obtain ⟨i, hi, rfl⟩ := List.mem_iff_getElem.mp hx
    have hd := hno i (by omega)
    rwa [List.getD_eq_getElem?_getD, List.getElem?_eq_getElem hi, Option.getD_some] at hd
  have hsum27 := List.card_nsmul_le_sum counts 3 hbig
  rw [hlen, smul_eq_mul] at hsum27
  omega

lemma distLoop_reach (s : RandTape) :
    ∀ (k p remaining : Nat) (counts : List Nat) (c : Nat),
      counts.length = 9 → (∀ x ∈ counts, 1 ≤ x ∧ x ≤ 3) → counts.sum + remaining = 15 →
      remaining ≠ 0 → c < 9 → counts.getD c 0 < 3 → s (p + k) % COLS = c →
      (∀ (p' : Nat) (counts' : List Nat), counts'.length = 9 →
        (∀ x ∈ counts', 1 ≤ x ∧ x ≤ 3) → counts'.sum + (remaining - 1) = 15 →
        ∃ fuel, (distLoop s fuel p' counts' (remaining - 1)).isSome) →
      ∃ fuel, (distLoop s fuel p counts remaining).isSome := by
  intro k
  induction k with
  | zero =>
    intro p remaining counts c hlen hmem hsum hrem hc hfull hs hnext
    rw [Nat.add_zero] at hs
    have hcol : s p % COLS < counts.length := by
      rw [hlen, hs]
      omega
    have hmem' : ∀ x ∈ counts.set (s p % COLS) (counts.getD (s p % COLS) 0 + 1),
        1 ≤ x ∧ x ≤ 3 := by
      intro x hx
      rcases List.mem_or_eq_of_mem_set hx with hx' | rfl
      · exact hmem x hx'
      · have hlt : counts.getD (s p % COLS) 0 < 3 := by rw [hs]; exact hfull
        omega
    have hsum' : (counts.set (s p % COLS) (counts.getD (s p % COLS) 0 + 1)).sum +
        (remaining - 1) = 15 := by
      have hset := sum_set_getD counts (s p % COLS)
        (counts.getD (s p % COLS) 0 + 1) hcol
      omega
    obtain ⟨fuel, hf⟩ := hnext (p + 1)
      (counts.set (s p % COLS) (counts.getD (s p % COLS) 0 + 1))
      (by rw [List.length_set, hlen]) hmem' hsum'
    refine ⟨fuel + 1, ?_⟩
    rw [distLoop, if_neg hrem]
    simp only
    rw [if_pos (by rw [hs]; exact hfull)]
    exact hf
  | succ k' ih =>
    intro p remaining counts c hlen hmem hsum hrem hc hfull hs hnext
    by_cases hacc : counts.getD (s p % COLS) 0 < 3
    · have hcol : s p % COLS < counts.length := by
        rw [hlen]
        exact Nat.mod_lt _ (by norm_num [COLS])
      have hmem' : ∀ x ∈ counts.set (s p % COLS) (counts.getD (s p % COLS) 0 + 1),
          1 ≤ x ∧ x ≤ 3 := by
        intro x hx
        rcases List.mem_or_eq_of_mem_set hx with hx' | rfl
        · exact hmem x hx'
        · omega
      have hsum' : (counts.set (s p % COLS) (counts.getD (s p % COLS) 0 + 1)).sum +
          (remaining - 1) = 15 := by
        have hset := sum_set_getD counts (s p % COLS)
          (counts.getD (s p % COLS) 0 + 1) hcol
        omega
      obtain ⟨fuel, hf⟩ := hnext (p + 1)
        (counts.set (s p % COLS) (counts.getD (s p % COLS) 0 + 1))
        (by rw [List.length_set, hlen]) hmem' hsum'
      refine ⟨fuel + 1, ?_⟩
      rw [distLoop, if_neg hrem]
      simp only
      rw [if_pos hacc]
      exact hf
    · obtain ⟨fuel, hf⟩ := ih (p + 1) remaining counts c hlen hmem hsum hrem hc hfull
        (by rw [show p + 1 + k' = p + (k' + 1) by omega]; exact hs) hnext
      refine ⟨fuel + 1, ?_⟩
      rw [distLoop, if_neg hrem]
      simp only
      rw [if_neg hacc]
      exact hf

lemma distLoop_fair_terminates (s : RandTape) (hfair : FairTape s) :
    ∀ (remaining p : Nat) (counts : List Nat),
      counts.length = 9 → (∀ x ∈ counts, 1 ≤ x ∧ x ≤ 3) → counts.sum + remaining = 15 →
      ∃ fuel, (distLoop s fuel p counts remaining).isSome := by
  intro remaining
  induction remaining with
  | zero =>
    intro p counts _ _ _
    exact ⟨1, by rw [distLoop, if_pos rfl]; rfl⟩
  | succ r ih =>
    intro p counts hlen hmem hsum
    obtain ⟨c, hc9, hcfull⟩ := exists_nonfull counts (r + 1) hlen hsum (by omega)
    obtain ⟨m, hm, hsm⟩ := hfair c (by rw [show COLS = 9 from rfl]; omega) p
    refine distLoop_reach s (m - p) p (r + 1) counts c hlen hmem hsum (by omega)
      hc9 hcfull (by rw [show p + (m - p) = m by omega]; exact hsm) ?_
    intro p' counts' h1 h2 h3
    exact ih p' counts' h1 h2 (by simpa using h3)

/-- C4 amended: `generateLotoTicket` consults at most its first 100 attempt
tapes, and the count-distribution loop of an attempt terminates for every
fair random sequence (one in which each column index is drawn infinitely
often; a uniform source is fair with probability 1) — but, as the
counterexample shows, not for every sequence. -/
theorem generation_bounded_attempts_and_fair_termination :
    (∀ (tapes tapes' : Nat → RandTape) (fuel : Nat),
      (∀ k, k < 100 → tapes k = tapes' k) →
      generateLotoTicket tapes fuel = generateLotoTicket tapes' fuel) ∧
      (∀ s : RandTape, FairTape s → ∀ p : Nat,
        ∃ fuel, (distributeNumbersAcrossColumns fuel s p).isSome) := by
  constructor
  · have hloop : ∀ (tapes tapes' : Nat → RandTape) (fuel : Nat)
        (remaining attempt : Nat),
        (∀ k, attempt ≤ k → k < attempt + remaining → tapes k = tapes' k) →
        genLoop tapes fuel attempt remaining = genLoop tapes' fuel attempt remaining := by
      intro tapes tapes' fuel remaining
      induction remaining with
      | zero => intro attempt _; rfl
      | succ r ih =>
        intro attempt hagree
        rw [genLoop, genLoop, hagree attempt (by omega) (by omega)]
        cases attemptResult (tapes' attempt) fuel with
        | some g => rfl
        | none => exact ih (attempt + 1) (fun k h1 h2 => hagree k (by omega) (by omega))
       
    intro tapes tapes' fuel hagree
    exact hloop tapes tapes' fuel 100 0 (fun k _ h2 => hagree k (by omega))
  · intro s hfair p
    exact distLoop_fair_terminates s hfair (TOTAL_NUMBERS - COLS) p
      (List.replicate COLS 1) (by simp [COLS])
      (fun x hx => by have := List.eq_of_mem_replicate hx; omega)
      (by simp [COLS, TOTAL_NUMBERS])

/-- C4 amended witness: the identity tape is fair, and on it the
distribution loop terminates for some fuel. -/
theorem generation_fair_termination_witness :
    FairTape (fun n => n) ∧
      ∃ fuel, (distributeNumbersAcrossColumns fuel (fun n => n) 0).isSome :=
  have hfair : FairTape (fun n => n) := by
    intro c hc n
    refine ⟨9 * (n + 1) + c, by omega, ?_⟩
    show (9 * (n + 1) + c) % 9 = c
    have hc9 : c < 9 := by
      rw [show COLS = 9 from rfl] at hc
      omega
    omega
  ⟨hfair, generation_bounded_attempts_and_fair_termination.2 (fun n => n) hfair 0⟩



/-! ## C9: the caller's duplicate-hash retry contract -/

lemma createLoop_step_not_ok (env : Nat → AttemptOutcome) (attempt r : Nat)
    (h : ∀ t, env attempt ≠ .ok t) :
    createTicketLoop env attempt (r + 1) = createTicketLoop env (attempt + 1) r := by
  rw [createTicketLoop]
  cases hA : env attempt with
  | ok t => exact absurd hA (h t)
  | dupReject => rfl
  | dbError => rfl
  | genFailure => rfl

lemma createLoop_exhausted_iff (env : Nat → AttemptOutcome) :
    ∀ remaining attempt : Nat,
      (createTicketLoop env attempt remaining = .exhausted ↔
        ∀ k, k < remaining → ∀ t, env (attempt + k) ≠ .ok t) := by
  intro remaining
  induction remaining with
  | zero => intro attempt; simp [createTicketLoop]
  | succ r ih =>
    intro attempt
    by_cases hok : ∃ t, env attempt = .ok t
    · obtain ⟨t, ht⟩ := hok
      constructor
      · intro h
        rw [createTicketLoop, ht] at h
        cases h
      · intro hall
        have hne := hall 0 (by omega) t
        rw [Nat.add_zero] at hne
        exact absurd ht hne
    · push_neg at hok
      rw [createLoop_step_not_ok env attempt r hok, ih (attempt + 1)]
      constructor
      · intro h k hk
        cases k with
        | zero =>
          rw [Nat.add_zero]
          exact hok
        | succ k' =>
          have hs := h k' (by omega)
          rwa [show attempt + 1 + k' = attempt + (k' + 1) by omega] at hs
      · intro h k hk
        have hs := h (k + 1) (by omega)
        rwa [show attempt + (k + 1) = attempt + 1 + k by omega] at hs

lemma createLoop_first_ok (env : Nat → AttemptOutcome) :
    ∀ remaining attempt k : Nat, k < remaining →
      (∀ j, j < k → ∀ t', env (attempt + j) ≠ .ok t') →
      ∀ t, env (attempt + k) = .ok t →
        createTicketLoop env attempt remaining = .ok t := by
  intro remaining
  induction remaining with
  | zero => intro attempt k hk; exact absurd hk (by omega)
  | succ r ih =>
    intro attempt k hk hprev t ht
    cases k with
    | zero =>
      rw [Nat.add_zero] at ht
      rw [createTicketLoop, ht]
    | succ k' =>
      have h0 : ∀ t', env attempt ≠ .ok t' := by
        intro t'
        have hp := hprev 0 (by omega) t'
        rwa [Nat.add_zero] at hp
      rw [createLoop_step_not_ok env attempt r h0]
      refine ih (attempt + 1) k' (by omega) ?_ t ?_
      · intro j hj t'
        have hp := hprev (j + 1) (by omega) t'
        rwa [show attempt + (j + 1) = attempt + 1 + j by omega] at hp
      · rwa [show attempt + 1 + k' = attempt + (k' + 1) by omega]

/-- C9: a duplicate-hash rejection (or any other attempt failure) never
surfaces from `createTicket`: the loop moves on to a fresh
generate-and-persist attempt, and the terminal error appears only when all
10 attempts of the budget fail; the first successful attempt within the
budget has its ticket returned. -/
theorem createTicket_duplicate_retry (env : Nat → AttemptOutcome) :
    (createTicket env = .exhausted ↔ ∀ k, k < 10 → ∀ t, env k ≠ .ok t) ∧
      (∀ k t, k < 10 → (∀ j, j < k → ∀ t', env j ≠ .ok t') → env k = .ok t →
        createTicket env = .ok t) := by
  constructor
  · have h := createLoop_exhausted_iff env 10 0
    simpa [createTicket] using h
  · intro k t hk hprev ht
    have h := createLoop_first_ok env 10 0 k hk (by simpa using hprev) t
      (by simpa using ht)
    simpa [createTicket] using h

/-- C9 witness: a duplicate rejection on attempt 0 followed by a success on
attempt 1 yields the ticket; ten straight duplicate rejections yield the
terminal error. -/
theorem createTicket_duplicate_retry_witness :
    createTicket (fun k => if k = 0 then .dupReject else .ok grid0) = .ok grid0 ∧
      createTicket (fun _ => .dupReject) = .exhausted :=
  ⟨(createTicket_duplicate_retry _).2 1 grid0 (by omega)
      (fun j hj t' => by interval_cases j; simp) (by simp),
    (createTicket_duplicate_retry _).1.mpr (fun k _ t => by simp)⟩



/-! ## C8: serialization round-trip -/

lemma digitChar_isDigit (d : Nat) (h : d < 10) : (digitChar d).isDigit = true := by
  interval_cases d <;> decide

lemma digitChar_val (d : Nat) (h : d < 10) : (digitChar d).toNat - 48 = d := by
  interval_cases d <;> decide

lemma isDigit_not_special (c : Char) (h : c.isDigit = true) :
    c ≠ 'n' ∧ c ≠ '-' := by
  constructor <;> rintro rfl <;> simp at h

lemma natDigits_digits : ∀ fuel n, n < fuel → ∀ c ∈ natDigits fuel n, c.isDigit = true := by
  intro fuel
  induction fuel with
  | zero => intro n hn; omega
  | succ f ih =>
    intro n hn c hc
    rw [natDigits] at hc
    by_cases h10 : n < 10
    · rw [if_pos h10] at hc
      simp only [List.mem_singleton] at hc
      subst hc
      exact digitChar_isDigit n h10
    · rw [if_neg h10] at hc
      rcases List.mem_append.mp hc with hc' | hc'
      · exact ih (n / 10) (by omega) c hc'
      · simp only [List.mem_singleton] at hc'
        subst hc'
        exact digitChar_isDigit (n % 10) (Nat.mod_lt _ (by omega))

lemma natDigits_ne_nil : ∀ fuel n, n < fuel → natDigits fuel n ≠ [] := by
  intro fuel
  induction fuel with
  | zero => intro n hn; omega
  | succ f _ =>
    intro n hn
    rw [natDigits]
    by_cases h10 : n < 10
    · rw [if_pos h10]
      simp
    · rw [if_neg h10]
      simp

lemma natDigits_foldl : ∀ fuel n acc, n < fuel →
    (natDigits fuel n).foldl (fun a c => a * 10 + (c.toNat - 48)) acc =
      acc * 10 ^ (natDigits fuel n).length + n := by
  intro fuel
  induction fuel with
  | zero => intro n acc hn; omega
  | succ f ih =>
    intro n acc hn
    rw [natDigits]
    by_cases h10 : n < 10
    · rw [if_pos h10]
      simp only [List.foldl_cons, List.foldl_nil, List.length_singleton, pow_one,
        digitChar_val n h10]
    · rw [if_neg h10]
      rw [List.foldl_append, ih (n / 10) acc (by omega)]
      simp only [List.foldl_cons, List.foldl_nil, List.length_append,
        List.length_singleton, digitChar_val (n % 10) (Nat.mod_lt _ (by omega))]
      have hpow : acc * 10 ^ ((natDigits f (n / 10)).length + 1) =
          acc * 10 ^ (natDigits f (n / 10)).length * 10 := by ring
      rw [hpow]
      omega

lemma parseDigitsAux_spec : ∀ (ds : List Char), (∀ c ∈ ds, c.isDigit = true) →
    ∀ (rest : List Char) (acc : Nat), (∀ c, rest.head? = some c → c.isDigit = false) →
      parseDigitsAux (ds ++ rest) acc =
        (ds.foldl (fun a c => a * 10 + (c.toNat - 48)) acc, rest) := by
  intro ds
  induction ds with
  | nil =>
    intro _ rest acc hrest
    simp only [List.nil_append, List.foldl_nil]
    cases rest with
    | nil => rfl
    | cons c cs =>
      rw [parseDigitsAux, if_neg (by simp [hrest c rfl])]
  | cons d ds ih =>
    intro h rest acc hrest
    have hd : d.isDigit = true := h d (by simp)
    rw [List.cons_append, parseDigitsAux, if_pos hd, List.foldl_cons]
    exact ih (fun c hc => h c (by simp [hc])) rest _ hrest

lemma parseCell_digit (d : Char) (cs : List Char) (hd : d.isDigit = true) :
    parseCell (d :: cs) =
      some (some (((parseDigitsAux cs (d.toNat - 48)).1 : Int)),
        (parseDigitsAux cs (d.toNat - 48)).2) := by
  obtain ⟨hn, hm⟩ := isDigit_not_special d hd
  rw [parseCell.eq_def]
  simp only [hn, hm, hd, if_false, if_true, ite_false, ite_true]

lemma parseCell_minus (d : Char) (cs : List Char) (hd : d.isDigit = true) :
    parseCell ('-' :: d :: cs) =
      some (some (-((parseDigitsAux cs (d.toNat - 48)).1 : Int)),
        (parseDigitsAux cs (d.toNat - 48)).2) := by
  have h1 : parseCell ('-' :: d :: cs) =
      if d.isDigit then
        some (some (-(((parseDigitsAux cs (d.toNat - 48)).1 : Nat) : Int)),
          (parseDigitsAux cs (d.toNat - 48)).2)
      else none := rfl
  rw [h1, if_pos hd]

lemma parseCell_serialize (cell : TicketCell) (rest : List Char)
    (hrest : ∀ c, rest.head? = some c → c.isDigit = false) :
    parseCell (serializeCellChars cell ++ rest) = some (cell, rest) := by
  cases cell with
  | none => rfl
  | some v =>
    show parseCell (intChars v ++ rest) = some (some v, rest)
    by_cases hneg : v < 0
    · rw [intChars, if_pos hneg]
      have hlt : v.natAbs < v.natAbs + 1 := by omega
      obtain ⟨d, ds, hL⟩ :=
        List.exists_cons_of_ne_nil (natDigits_ne_nil (v.natAbs + 1) v.natAbs hlt)
      have hd : d.isDigit = true :=
        natDigits_digits _ _ hlt d (by rw [hL]; simp)
      have hds : ∀ c ∈ ds, c.isDigit = true :=
        fun c hc => natDigits_digits _ _ hlt c (by rw [hL]; simp [hc])
      rw [hL, List.cons_append, List.cons_append, parseCell_minus d (ds ++ rest) hd]
      have hpd := parseDigitsAux_spec ds hds rest (d.toNat - 48) hrest
      simp only [hpd]
      have hfold : ds.foldl (fun a c => a * 10 + (c.toNat - 48)) (d.toNat - 48) =
          v.natAbs := by
        have hval := natDigits_foldl (v.natAbs + 1) v.natAbs 0 hlt
        rw [hL, List.foldl_cons] at hval
        simpa using hval
      rw [hfold, show -((v.natAbs : Int)) = v by omega]
    · rw [intChars, if_neg hneg]
      have hlt : v.toNat < v.toNat + 1 := by omega
      obtain ⟨d, ds, hL⟩ :=
        List.exists_cons_of_ne_nil (natDigits_ne_nil (v.toNat + 1) v.toNat hlt)
      have hd : d.isDigit = true :=
        natDigits_digits _ _ hlt d (by rw [hL]; simp)
      have hds : ∀ c ∈ ds, c.isDigit = true :=
        fun c hc => natDigits_digits _ _ hlt c (by rw [hL]; simp [hc])
      rw [hL, List.cons_append, parseCell_digit d (ds ++ rest) hd]
      have hpd := parseDigitsAux_spec ds hds rest (d.toNat - 48) hrest
      simp only [hpd]
      have hfold : ds.foldl (fun a c => a * 10 + (c.toNat - 48)) (d.toNat - 48) =
          v.toNat := by
        have hval := natDigits_foldl (v.toNat + 1) v.toNat 0 hlt
        rw [hL, List.foldl_cons] at hval
        simpa using hval
      rw [hfold, show ((v.toNat : Int)) = v by omega]


lemma head_cons_not_digit (a : Char) (l : List Char) (ha : a.isDigit = false) :
    ∀ c, (a :: l).head? = some c → c.isDigit = false := by
  intro c hc
  rw [List.head?_cons] at hc
  injection hc with h
  rwa [← h]

lemma parseCellsAux_serialize : ∀ (cells : List TicketCell) (fuel : Nat) (rest : List Char),
    cells ≠ [] → cells.length ≤ fuel →
    parseCellsAux fuel (commaSep (cells.map serializeCellChars) ++ (']' :: rest)) =
      some (cells, rest) := by
  intro cells
  induction cells with
  | nil => intro fuel rest h; exact absurd rfl h
  | cons cell cs ih =>
    intro fuel rest _ hfuel
    cases fuel with
    | zero => simp at hfuel
    | succ f =>
      cases cs with
      | nil =>
        simp only [List.map_cons, List.map_nil, commaSep]
        rw [parseCellsAux,
          parseCell_serialize cell (']' :: rest) (head_cons_not_digit ']' rest (by decide))]
        rfl
      | cons c2 cs2 =>
        simp only [List.map_cons, commaSep]
        rw [parseCellsAux, List.append_assoc, List.cons_append,
          parseCell_serialize cell _ (head_cons_not_digit ',' _ (by decide))]
        have hih := ih f rest (by simp) (by simp at hfuel ⊢; omega)
        simp only [List.map_cons] at hih
        simp only [hih]

lemma parseRow_bracket_cons (fuel : Nat) (d : Char) (cs : List Char) (hd : d ≠ ']') :
    parseRow fuel ('[' :: d :: cs) = parseCellsAux fuel (d :: cs) := by
  show (if d = ']' then some (([] : List TicketCell), cs) else parseCellsAux fuel (d :: cs)) =
    parseCellsAux fuel (d :: cs)
  rw [if_neg hd]

lemma serializeCellChars_head : ∀ cell : TicketCell,
    ∃ d tl, serializeCellChars cell = d :: tl ∧ d ≠ ']' ∧ d ≠ ',' := by
  intro cell
  cases cell with
  | none => exact ⟨'n', _, rfl, by decide, by decide⟩
  | some v =>
    show ∃ d tl, intChars v = d :: tl ∧ d ≠ ']' ∧ d ≠ ','
    by_cases hneg : v < 0
    · exact ⟨'-', _, by rw [intChars, if_pos hneg], by decide, by decide⟩
    · have hlt : v.toNat < v.toNat + 1 := by omega
      obtain ⟨d, ds, hL⟩ :=
        List.exists_cons_of_ne_nil (natDigits_ne_nil (v.toNat + 1) v.toNat hlt)
      have hd : d.isDigit = true := natDigits_digits _ _ hlt d (by rw [hL]; simp)
      refine ⟨d, ds, by rw [intChars, if_neg hneg, hL], ?_, ?_⟩
      · rintro rfl; simp at hd
      · rintro rfl; simp at hd

lemma commaSep_cons_append : ∀ (x : List Char) (xs : List (List Char)),
    ∃ suffix, commaSep (x :: xs) = x ++ suffix := by
  intro x xs
  cases xs with
  | nil => exact ⟨[], by simp [commaSep]⟩
  | cons y ys => exact ⟨',' :: commaSep (y :: ys), rfl⟩

lemma parseRow_serialize (row : List TicketCell) (fuel : Nat) (rest : List Char)
    (hfuel : row.length ≤ fuel) :
    parseRow fuel (serializeRowChars row ++ rest) = some (row, rest) := by
  cases row with
  | nil => rfl
  | cons cell cs =>
    obtain ⟨d0, tl, hS, hd0, -⟩ := serializeCellChars_head cell
    obtain ⟨suffix, hcomma⟩ := commaSep_cons_append (serializeCellChars cell)
      ((cs).map serializeCellChars)
    have hexp : serializeRowChars (cell :: cs) ++ rest =
        '[' :: d0 :: (tl ++ (suffix ++ (']' :: rest))) := by
      show '[' :: ((commaSep ((cell :: cs).map serializeCellChars) ++ [']']) ++ rest) =
        '[' :: d0 :: (tl ++ (suffix ++ (']' :: rest)))
      rw [List.map_cons, hcomma, hS]
      simp [List.append_assoc]
    rw [hexp, parseRow_bracket_cons fuel d0 _ hd0,
      show d0 :: (tl ++ (suffix ++ (']' :: rest))) =
        commaSep ((cell :: cs).map serializeCellChars) ++ (']' :: rest) by
        rw [List.map_cons, hcomma, hS]; simp [List.append_assoc]]
    exact parseCellsAux_serialize (cell :: cs) fuel rest (by simp) hfuel

lemma parseRowsAux_serialize :
    ∀ (rows : List (List TicketCell)) (fuel : Nat) (rest : List Char),
      rows ≠ [] → rows.foldr (fun row acc => 1 + row.length + acc) 0 ≤ fuel →
      parseRowsAux fuel (commaSep (rows.map serializeRowChars) ++ (']' :: rest)) =
        some (rows, rest) := by
  intro rows
  induction rows with
  | nil => intro fuel rest h; exact absurd rfl h
  | cons row rws ih =>
    intro fuel rest _ hfuel
    cases fuel with
    | zero => simp at hfuel
    | succ f =>
      cases rws with
      | nil =>
        simp only [List.map_cons, List.map_nil, commaSep]
        rw [parseRowsAux, parseRow_serialize row f (']' :: rest) (by simp at hfuel; omega)]
        rfl
      | cons r2 rws2 =>
        simp only [List.map_cons, commaSep]
        rw [parseRowsAux, List.append_assoc, List.cons_append,
          parseRow_serialize row f _ (by simp at hfuel; omega)]
        have hih := ih f rest (by simp) (by simp at hfuel ⊢; omega)
        simp only [List.map_cons] at hih
        simp only [hih]

lemma serializeCellChars_length (cell : TicketCell) : 1 ≤ (serializeCellChars cell).length := by
  cases cell with
  | none => decide
  | some v =>
    show 1 ≤ (intChars v).length
    by_cases hneg : v < 0
    · rw [intChars, if_pos hneg]
      simp
    · rw [intChars, if_neg hneg]
      have hlt : v.toNat < v.toNat + 1 := by omega
      exact List.length_pos.mpr (natDigits_ne_nil (v.toNat + 1) v.toNat hlt)

lemma commaSep_length_ge : ∀ ls : List (List Char), (∀ x ∈ ls, 1 ≤ x.length) →
    ls.length ≤ (commaSep ls).length + 1 := by
  intro ls
  induction ls with
  | nil => intro _; simp
  | cons x xs ih =>
    intro h
    cases xs with
    | nil => simp [commaSep]
    | cons y ys =>
      have hx := h x (by simp)
      have hih := ih (fun z hz => h z (by simp [hz]))
      show (y :: ys).length + 1 ≤ (x ++ ',' :: commaSep (y :: ys)).length + 1
      rw [List.length_append, List.length_cons]
      simp only [List.length_cons] at hih ⊢
      omega

lemma serializeRowChars_length (row : List TicketCell) :
    1 + row.length ≤ (serializeRowChars row).length := by
  show 1 + row.length ≤ ('[' :: (commaSep (row.map serializeCellChars) ++ [']'])).length
  rw [List.length_cons, List.length_append]
  have h := commaSep_length_ge (row.map serializeCellChars)
    (fun x hx => by
      obtain ⟨cell, -, rfl⟩ := List.mem_map.mp hx
      exact serializeCellChars_length cell)
  rw [List.length_map] at h
  simp only [List.length_singleton]
  omega

lemma rows_need_le : ∀ rows : List (List TicketCell),
    rows.foldr (fun row acc => 1 + row.length + acc) 0 ≤
      (commaSep (rows.map serializeRowChars)).length + 1 := by
  intro rows
  induction rows with
  | nil => simp
  | cons row rws ih =>
    cases rws with
    | nil =>
      simp only [List.foldr_cons, List.foldr_nil, List.map_cons, List.map_nil, commaSep]
      have := serializeRowChars_length row
      omega
    | cons r2 rws2 =>
      simp only [List.foldr_cons, List.map_cons, commaSep] at ih ⊢
      rw [List.length_append, List.length_cons]
      have := serializeRowChars_length row
      omega

lemma deserializeTicket_bracket_cons (d : Char) (cs : List Char) (hd : d ≠ ']') :
    deserializeTicket (String.mk ('[' :: d :: cs)) =
      match parseRowsAux (d :: cs).length (d :: cs) with
      | some (rows, []) => some rows
      | _ => none := by
  show (if d = ']' then (if cs = [] then some ([] : TicketGrid) else none)
      else match parseRowsAux (d :: cs).length (d :: cs) with
        | some (rows, []) => some rows
        | _ => none) = _
  rw [if_neg hd]

lemma deserialize_serialize (g : TicketGrid) :
    deserializeTicket (serializeTicket g) = some g := by
  cases g with
  | nil => rfl
  | cons row rows =>
    obtain ⟨suffix, hcomma⟩ := commaSep_cons_append (serializeRowChars row)
      (rows.map serializeRowChars)
    have hrow : serializeRowChars row =
        '[' :: (commaSep (row.map serializeCellChars) ++ [']']) := rfl
    have hexp : serializeTicket (row :: rows) =
        String.mk ('[' :: '[' ::
          ((commaSep (row.map serializeCellChars) ++ [']']) ++ (suffix ++ (']' :: [])))) := by
      show String.mk ('[' :: (commaSep ((row :: rows).map serializeRowChars) ++ [']'])) = _
      rw [List.map_cons, hcomma, hrow]
      simp [List.append_assoc]
    rw [hexp, deserializeTicket_bracket_cons _ _ (by decide)]
    have hback : '[' :: ((commaSep (row.map serializeCellChars) ++ [']']) ++
        (suffix ++ (']' :: []))) =
        commaSep ((row :: rows).map serializeRowChars) ++ (']' :: []) := by
      rw [List.map_cons, hcomma, hrow]
      simp [List.append_assoc]
    rw [hback]
    have hfuel : (row :: rows).foldr (fun row acc => 1 + row.length + acc) 0 ≤
        (commaSep ((row :: rows).map serializeRowChars) ++ (']' :: [])).length := by
      have hneed := rows_need_le (row :: rows)
      simp only [List.length_append, List.length_cons, List.length_nil]
      omega
    rw [parseRowsAux_serialize (row :: rows) _ [] (by simp) hfuel]



/-- C8: for every 3×9 grid whose cells are integers or empty,
deserializing the serialization recovers the grid structurally, including
the null-versus-number distinction at every position; and structurally
equal grids serialize to the same string. -/
theorem serialization_roundtrip (grid : TicketGrid)
    (h3 : grid.length = 3) (h9 : ∀ row ∈ grid, row.length = 9) :
    deserializeTicket (serializeTicket grid) = some grid ∧
      ∀ grid' : TicketGrid, grid = grid' →
        serializeTicket grid = serializeTicket grid' :=
  ⟨deserialize_serialize grid, fun _ h => congrArg serializeTicket h⟩

/-- C8 witness: the round trip on the concrete grid `grid0`. -/
theorem serialization_roundtrip_witness :
    deserializeTicket (serializeTicket grid0) = some grid0 :=
  (serialization_roundtrip grid0 (by decide) (by decide)).1


end Loto
